import Mathlib

/-!
Verification development for the step-driven task executor
(`src/agent/agent.py`, `src/tools/terminal.py`, `src/tools/Tools.py`).

The Python code is shallowly embedded: dictionaries become association
lists over `PyVal`, the background-process registry becomes an
association list of `ProcInfo` records, operating-system interactions
(process liveness, spawn results, command outcomes, file-system faults)
become explicit oracle data threaded through the state, and Python
exceptions become `Except` values.  Machine-level details (actual
subprocess scheduling, wall-clock sleeps) are outside the embedding;
every observation the Python code makes of the OS is represented by the
oracle fields, and the control flow acting on those observations is
translated line by line.
-/

namespace CodeAgent

/-- Value of a Python dictionary entry as produced by the terminal tools:
strings, integers, booleans and Python's None. -/
inductive PyVal where
  | str : String → PyVal
  | int : Int → PyVal
  | bool : Bool → PyVal
  | null : PyVal
deriving DecidableEq, Repr

/-- A Python dictionary with scalar values, as an insertion-ordered
association list (the tools only ever build literal dictionaries, so keys
are distinct by construction). -/
abbrev PyDict := List (String × PyVal)

/-- String-to-string parameter mapping, as parsed out of a model reply. -/
abbrev Params := List (String × String)

/-- Dictionary lookup (`d.get(k)` / `d[k]` on the literal dictionaries
built by the tools). -/
def dictGet (d : PyDict) (k : String) : Option PyVal :=
  match d.find? (fun kv => kv.1 == k) with
  | some kv => some kv.2
  | Option.none => Option.none

/-- Python's `k in d` membership test on a dictionary. -/
def dictHasKey (d : PyDict) (k : String) : Bool :=
  (dictGet d k).isSome

/-- Python dictionary assignment `d[k] = v`: overwrite in place if the key
exists, otherwise append (insertion order). -/
def dictSet (d : PyDict) (k : String) (v : PyVal) : PyDict :=
  if d.any (fun kv => kv.1 == k) then
    d.map (fun kv => if kv.1 == k then (k, v) else kv)
  else d ++ [(k, v)]

/-- Lookup in a string-to-string parameter mapping
(`parameters.get(k, default)`). -/
def paramsGetD (ps : Params) (k : String) (default : String) : String :=
  match ps.find? (fun kv => kv.1 == k) with
  | some kv => kv.2
  | Option.none => default

/-- Python's `k in parameters` membership test. -/
def paramsHas (ps : Params) (k : String) : Bool :=
  (ps.find? (fun kv => kv.1 == k)).isSome

/-- Assignment `parameters[key] = value` on a string mapping. -/
def paramsSet (ps : Params) (k v : String) : Params :=
  if ps.any (fun kv => kv.1 == k) then
    ps.map (fun kv => if kv.1 == k then (k, v) else kv)
  else ps ++ [(k, v)]

/-- One entry of `Terminal_for_agent.background_processes`
(`terminal.py:76-82`), together with the oracle data describing how the
underlying OS process behaves when the code observes it:

* `alive` is what `process.poll() is None` reports at observation time;
* `returncode` is `process.returncode` once the process is dead;
* `aliveAfterTerm` is the second poll inside `stop_background_process`
  (after SIGTERM and the grace sleep), deciding SIGKILL escalation;
* `killRaises` is `some e` when `os.killpg` raises an exception with
  text `e`, `none` when the signals are delivered normally;
* `stdinRaises` is `some e` when writing to the process's stdin raises.
-/
structure ProcInfo where
  command : String
  startTime : Nat
  stdout : String
  stderr : String
  alive : Bool
  returncode : Int
  aliveAfterTerm : Bool
  killRaises : Option String
  stdinRaises : Option String
deriving DecidableEq, Repr

/-- The registry `self.background_processes`: a Python dictionary from
generated process id to record, kept in insertion order. -/
abbrev Registry := List (String × ProcInfo)

/-- First record registered under `pid`, if any
(`process_id in self.background_processes` plus the subsequent lookup). -/
def regFind (reg : Registry) (pid : String) : Option ProcInfo :=
  match reg.find? (fun kv => kv.1 == pid) with
  | some kv => some kv.2
  | Option.none => Option.none

/-- `del self.background_processes[process_id]`. -/
def regErase (reg : Registry) (pid : String) : Registry :=
  reg.filter (fun kv => kv.1 != pid)

/-- State of one `Terminal_for_agent` instance: working directory, a
model of the file system (path to contents), the background-process
registry, the log of signals sent so far (newest last), a clock for
`time.time()`, and the schedule of file-I/O faults (`ioFaults` head is
consumed by the next `open`/`write`; `some e` means that operation raises
an exception rendered as `e`, an exhausted list means success). -/
structure TermState where
  cwd : String
  fs : List (String × String)
  procs : Registry
  events : List String
  now : Nat
  ioFaults : List (Option String)
deriving DecidableEq, Repr

/-- Read a file's contents, empty for a missing file (append mode creates
missing files). -/
def fsRead (fs : List (String × String)) (path : String) : String :=
  match fs.find? (fun kv => kv.1 == path) with
  | some kv => kv.2
  | Option.none => ""

/-- Whether a path exists in the file-system model. -/
def fsHas (fs : List (String × String)) (path : String) : Bool :=
  (fs.find? (fun kv => kv.1 == path)).isSome

/-- Set a path's contents (create or overwrite). -/
def fsSet (fs : List (String × String)) (path content : String) :
    List (String × String) :=
  if fs.any (fun kv => kv.1 == path) then
    fs.map (fun kv => if kv.1 == path then (path, content) else kv)
  else fs ++ [(path, content)]

/-- Consume the next scheduled file-I/O fault. -/
def nextFault (st : TermState) : Option String × TermState :=
  match st.ioFaults with
  | [] => (Option.none, st)
  | f :: rest => (f, { st with ioFaults := rest })

/-- The not-found error dictionary shared by `get_process_output`,
`stop_background_process` and `send_input_to_process`
(`terminal.py:148,170,203`). -/
def notFoundDict (pid : String) : PyDict :=
  [("error", PyVal.str ("Process with ID " ++ pid ++ " not found"))]

/-- `Terminal_for_agent.write_file` (`terminal.py:342-349`): open in `w`
mode (truncate/create) and write; any exception is caught and returned as
an error dictionary. -/
def write_file (st : TermState) (path content : String) :
    PyDict × TermState :=
  let (fault, st') := nextFault st
  match fault with
  | some e => ([("error", PyVal.str e)], st')
  | Option.none =>
    ([("success", PyVal.bool true),
      ("message", PyVal.str ("File " ++ path ++ " written successfully"))],
     { st' with fs := fsSet st'.fs path content })

/-- `Terminal_for_agent.append_to_file` (`terminal.py:351-358`): open in
`a` mode (create if missing) and append; exceptions become error
dictionaries. -/
def append_to_file (st : TermState) (path content : String) :
    PyDict × TermState :=
  let (fault, st') := nextFault st
  match fault with
  | some e => ([("error", PyVal.str e)], st')
  | Option.none =>
    ([("success", PyVal.bool true),
      ("message", PyVal.str ("Content appended to " ++ path ++ " successfully"))],
     { st' with fs := fsSet st'.fs path (fsRead st'.fs path ++ content) })

/-- `Terminal_for_agent.start_background_process` (`terminal.py:62-96`).
The `subprocess.Popen` call and the `uuid4` id generation are external:
`spawnRes` is `none` when `Popen` raises (error result, no record) and
`some (pid, info)` when it succeeds, in which case `info`'s buffers are
the output accumulated during the settle sleep before the snapshot. -/
def start_background_process (st : TermState) (command : String)
    (spawnRes : Option (String × ProcInfo)) : PyDict × TermState :=
  match spawnRes with
  | Option.none => ([("error", PyVal.str ("spawn failed: " ++ command))], st)
  | some (pid, info) =>
    ([("process_id", PyVal.str pid),
      ("status", PyVal.str "started"),
      ("stdout", PyVal.str info.stdout),
      ("stderr", PyVal.str info.stderr)],
     { st with procs := st.procs ++ [(pid, info)] })

/-- `Terminal_for_agent.list_background_processes` (`terminal.py:126-143`):
iterate over a snapshot of the registry, report every entry with its
status and runtime, and as a side effect delete the entries observed
dead (listing doubles as a garbage-collection pass). -/
def list_background_processes (st : TermState) :
    List (String × PyDict) × TermState :=
  let report := st.procs.map (fun kv =>
    (kv.1,
     [("command", PyVal.str kv.2.command),
      ("status", PyVal.str (if kv.2.alive then "running" else "terminated")),
      ("runtime", PyVal.int (Int.ofNat (st.now - kv.2.startTime)))]))
  (report, { st with procs := st.procs.filter (fun kv => kv.2.alive) })

/-- `Terminal_for_agent.get_process_output` (`terminal.py:145-165`):
not-found error for an unregistered id; otherwise the accumulated
buffers, and when the process is observed dead the exit code is added to
the result and the record is deleted. -/
def get_process_output (st : TermState) (pid : String) :
    PyDict × TermState :=
  match regFind st.procs pid with
  | Option.none => (notFoundDict pid, st)
  | some info =>
    if info.alive then
      ([("status", PyVal.str "running"),
        ("stdout", PyVal.str info.stdout),
        ("stderr", PyVal.str info.stderr)], st)
    else
      ([("status", PyVal.str "terminated"),
        ("stdout", PyVal.str info.stdout),
        ("stderr", PyVal.str info.stderr),
        ("returncode", PyVal.int info.returncode)],
       { st with procs := regErase st.procs pid })

/-- `Terminal_for_agent.stop_background_process` (`terminal.py:167-198`):
not-found error for an unregistered id.  For a live process, SIGTERM to
the process group, grace sleep, SIGKILL if still alive; an exception from
`os.killpg` is caught and becomes an error result.  For an already dead
process, an already-terminated message.  In every found case the record
is deleted unconditionally afterwards. -/
def stop_background_process (st : TermState) (pid : String) :
    PyDict × TermState :=
  match regFind st.procs pid with
  | Option.none => (notFoundDict pid, st)
  | some info =>
    if info.alive then
      match info.killRaises with
      | some e =>
        ([("error", PyVal.str e)],
         { st with procs := regErase st.procs pid })
      | Option.none =>
        let sent := if info.aliveAfterTerm then
            ["SIGTERM:" ++ pid, "SIGKILL:" ++ pid]
          else ["SIGTERM:" ++ pid]
        ([("success", PyVal.bool true),
          ("message", PyVal.str ("Process " ++ pid ++ " stopped")),
          ("stdout", PyVal.str info.stdout),
          ("stderr", PyVal.str info.stderr)],
         { st with procs := regErase st.procs pid,
                   events := st.events ++ sent })
    else
      ([("message", PyVal.str ("Process " ++ pid ++ " was already terminated"))],
       { st with procs := regErase st.procs pid })

/-- `Terminal_for_agent.send_input_to_process` (`terminal.py:200-224`):
not-found error for an unregistered id; for a live process write the text
plus newline to stdin (recorded in the event log; a write exception is
caught and returned) and reply with the current buffers; for a dead but
still registered process an is-not-running error.  The registry is never
modified here. -/
def send_input_to_process (st : TermState) (pid input_text : String) :
    PyDict × TermState :=
  match regFind st.procs pid with
  | Option.none => (notFoundDict pid, st)
  | some info =>
    if info.alive then
      match info.stdinRaises with
      | some e => ([("error", PyVal.str e)], st)
      | Option.none =>
        ([("success", PyVal.bool true),
          ("message", PyVal.str ("Input sent to process " ++ pid)),
          ("stdout", PyVal.str info.stdout),
          ("stderr", PyVal.str info.stderr)],
         { st with events := st.events ++ ["STDIN:" ++ pid ++ ":" ++ input_text] })
    else
      ([("error", PyVal.str ("Process " ++ pid ++ " is not running"))], st)

/-- Outcome of one `subprocess.Popen` plus `communicate(timeout=...)`
round in `run_command`, as observed by the code: the spawn raises, the
command finishes within the timeout, or the timeout expires with some
partial output readable without blocking. -/
inductive CmdOutcome where
  | spawnError : String → CmdOutcome
  | completed : String → String → Int → CmdOutcome
  | timedOut : String → String → CmdOutcome
deriving DecidableEq, Repr

/-- `Terminal_for_agent.run_command` (`terminal.py:16-44`): on normal
completion stdout, stderr and the return code; on `TimeoutExpired` the
partial non-blocking reads, a `returncode` of None, status `running` and
an explanatory message; a spawn exception becomes an error dictionary.
The process itself is left running and untracked on timeout, so the
state is unchanged. -/
def run_command (timeoutStr : String) (outcome : CmdOutcome) : PyDict :=
  match outcome with
  | .spawnError e => [("error", PyVal.str e)]
  | .completed out err rc =>
    [("stdout", PyVal.str out),
     ("stderr", PyVal.str err),
     ("returncode", PyVal.int rc)]
  | .timedOut out err =>
    [("stdout", PyVal.str out),
     ("stderr", PyVal.str err),
     ("returncode", PyVal.null),
     ("status", PyVal.str "running"),
     ("message", PyVal.str ("Command still running after " ++ timeoutStr ++
        " seconds. Continuing in background."))]

/-- The slicing loop of `chunk_large_file_operations` (`agent.py:363-364`):
`content[i:i + chunk_size] for i in range(0, len(content), chunk_size)`.
With `c = 0` Python's `range` would raise; the guard makes the function
total and every call site uses a positive chunk size. -/
def chunksOf (c : Nat) (l : List Char) : List (List Char) :=
  if h : c = 0 ∨ l = [] then []
  else l.take c :: chunksOf c (l.drop c)
termination_by l.length
decreasing_by
  push_neg at h
  simp only [List.length_drop]
  have hl : 0 < l.length := List.length_pos.mpr h.2
  omega

/-- Character classified as whitespace by Python's `str.strip` and the
`\s` regex class (ASCII range, which is all the code ever feeds it). -/
def pyIsSpace (ch : Char) : Bool :=
  ch = ' ' || ch = '\t' || ch = '\n' || ch = '\r' || ch = '\x0b' || ch = '\x0c'

/-- Character matched by the regex class `\w` (ASCII range). -/
def pyIsWord (ch : Char) : Bool :=
  ch.isAlphanum || ch = '_'

/-- Python's `str.strip()`: drop whitespace from both ends. -/
def pyStrip (l : List Char) : List Char :=
  ((l.dropWhile pyIsSpace).reverse.dropWhile pyIsSpace).reverse

/-- Python's `str.lower()` on the ASCII tokens that the extractor
compares (`"null"`, `"true"`). -/
def pyLower (l : List Char) : List Char :=
  l.map Char.toLower

/-- Split at the first occurrence of `pat`: returns the text before the
occurrence and the text after it, or `none` when `pat` does not occur.
This is the primitive under the extractor's regex searches. -/
def splitFirst (pat : List Char) : List Char → Option (List Char × List Char)
  | [] => if pat = [] then some ([], []) else Option.none
  | x :: xs =>
    if (x :: xs).take pat.length = pat then some ([], (x :: xs).drop pat.length)
    else (splitFirst pat xs).map (fun p => (x :: p.1, p.2))

/-- Whether `pat` occurs in `l` (Python's `pat in text` on strings). -/
def containsSub (pat : String) (s : String) : Bool :=
  (splitFirst pat.toList s.toList).isSome

/-- `re.search(openTag + "(.*?)" + closeTag, text, re.DOTALL)` for the
literal, non-self-overlapping tags used in `extract_response_from_tags`:
the match starts at the first occurrence of the opening tag that is
followed by the closing tag, and the lazy group ends at the first closing
tag after it.  (If any occurrence of the opening tag is followed by the
closing tag then the first occurrence is, so searching from the first
opening tag is exactly the regex's leftmost-match rule.) -/
def extractTag (openT closeT : String) (text : List Char) :
    Option (List Char) := do
  let p1 ← splitFirst openT.toList text
  let p2 ← splitFirst closeT.toList p1.2
  pure p2.1

/-- The `path` field regex `path:\s*(.*?)(?:\n|$)` (`agent.py:137-138`),
applied after the first occurrence of `path:`: the greedy `\s*` consumes
every whitespace character (newlines included), then the lazy group runs
to the next newline or the end of the text.  `none` when `path:` does not
occur. -/
def regexPathField (ptext : List Char) : Option (List Char) :=
  (splitFirst "path:".toList ptext).map (fun p =>
    ((p.2.dropWhile pyIsSpace).takeWhile (fun ch => ch ≠ '\n')))

/-- Stopping test of the lookahead `(?=\n\w+:|$)` at the current suffix:
a newline followed by a non-empty run of word characters and a colon. -/
def contentStopsHere (s : List Char) : Bool :=
  match s with
  | '\n' :: rest =>
    let run := rest.takeWhile pyIsWord
    (!run.isEmpty) &&
      (match rest.drop run.length with
       | ':' :: _ => true
       | _ => false)
  | _ => false

/-- The lazy group of `content:\s*(.*?)(?=\n\w+:|$)` with `re.DOTALL`:
take characters until the first position where the lookahead matches.
Besides `contentStopsHere`, `$` (without `re.MULTILINE`) matches at the
end of the text and just before a trailing newline. -/
def takeContentField : List Char → List Char
  | [] => []
  | c :: rest =>
    if contentStopsHere (c :: rest) then []
    else if rest = [] && c = '\n' then []
    else c :: takeContentField rest

/-- The `content` field regex `content:\s*(.*?)(?=\n\w+:|$)` with
`re.DOTALL` (`agent.py:142-143`): `none` when `content:` does not occur,
otherwise skip the greedy whitespace and take the lazily matched span. -/
def regexContentField (ptext : List Char) : Option (List Char) :=
  (splitFirst "content:".toList ptext).map (fun p =>
    takeContentField (p.2.dropWhile pyIsSpace))

/-- Python's `text.split('\n')`. -/
def splitLinesChar : List Char → List (List Char)
  | [] => [[]]
  | x :: xs =>
    if x = '\n' then [] :: splitLinesChar xs
    else
      match splitLinesChar xs with
      | h :: t => (x :: h) :: t
      | [] => [[x]]

/-- Parameter-block parsing for file-content actions
(`agent.py:136-150`): one `path` field (default `unknown_path.txt` when
the regex finds none) and one `content` field (empty when the regex finds
none), both stripped; a stripped `content` can no longer start with a
newline, so the leading-newline removal at `agent.py:147-148` never
fires but is kept as in the source. -/
def parseFileParams (ptext : List Char) : Params :=
  let path :=
    match regexPathField ptext with
    | some v => String.mk (pyStrip v)
    | Option.none => "unknown_path.txt"
  let content :=
    match regexContentField ptext with
    | some v => String.mk (pyStrip v)
    | Option.none => ""
  let content :=
    if content.toList.head? = some '\n' then String.mk (content.toList.drop 1)
    else content
  [("path", path), ("content", content)]

/-- Parameter-block parsing for every other action (`agent.py:152-158`):
split into lines, split each line containing a colon once into a key and
a value, strip both, later lines overriding earlier equal keys as Python
dictionary assignment does. -/
def parseKVParams (ptext : List Char) : Params :=
  (splitLinesChar ptext).foldl
    (fun acc line =>
      match splitFirst [':'] line with
      | some kv => paramsSet acc (String.mk (pyStrip kv.1)) (String.mk (pyStrip kv.2))
      | Option.none => acc)
    []

/-- The decision record built by `extract_response_from_tags`: the
rationale, the optional action name (`none` both when the `<function>`
region is missing and when its value is the token `null`; note Python
treats an empty-string name as falsy everywhere it is consulted), the
parameter mapping, and the completion flag. -/
structure Decision where
  thought : String
  function : Option String
  task_complete : Bool
  parameters : Params
deriving DecidableEq, Repr

/-- Python truthiness of `decision.get("function")`: `None` and the empty
string are falsy. -/
def pyTruthyStr : Option String → Bool
  | Option.none => false
  | some s => !(s == "")

/-- `Agent.extract_response_from_tags` (`agent.py:107-168`): locate the
four tagged regions independently; normalize a (case-insensitive) `null`
action name to `None`; parse `task_complete` as true only for the token
`true`; parse the parameter block only when an action name is present and
truthy, with the file-content policy for names containing `write_file` or
`append_to_file` and the key-value policy otherwise; default the thought
and the completion flag when their regions are missing.  Total by
construction, and paired with the constant diagnostic the source
returns. -/
def extract_response_from_tags (text : String) : Decision × String :=
  let tl := text.toList
  let thoughtReg := extractTag "<thought>" "</thought>" tl
  let functionVal : Option String :=
    match extractTag "<function>" "</function>" tl with
    | some m =>
      let fv := String.mk (pyStrip m)
      if !(String.mk (pyLower fv.toList) == "null") then some fv else Option.none
    | Option.none => Option.none
  let tcReg := extractTag "<task_complete>" "</task_complete>" tl
  let parameters :=
    match extractTag "<parameters>" "</parameters>" tl with
    | some m =>
      if pyTruthyStr functionVal then
        let ptext := pyStrip m
        let fn := functionVal.getD ""
        if containsSub "write_file" fn || containsSub "append_to_file" fn then
          parseFileParams ptext
        else
          parseKVParams ptext
      else []
    | Option.none => []
  ({ thought :=
       match thoughtReg with
       | some m => String.mk (pyStrip m)
       | Option.none => "No thought provided"
     function := functionVal
     task_complete :=
       match tcReg with
       | some m => String.mk (pyLower (pyStrip m)) == "true"
       | Option.none => false
     parameters := parameters },
   "Successfully extracted response from tags")

/-- Value returned by a tool handler: the terminal methods return either
a dictionary, a dictionary of per-process dictionaries
(`list_background_processes`), a list of names (`os.listdir`) or a plain
string (`get_file_contents`). -/
inductive ToolResult where
  | dict : PyDict → ToolResult
  | dictOfDicts : List (String × PyDict) → ToolResult
  | strList : List String → ToolResult
  | str : String → ToolResult
deriving DecidableEq, Repr

/-- The external world as the dispatcher observes it: the outcome of a
`run_command` subprocess, the result of spawning a background process
(fresh id and initial record, or a spawn failure), and the replies of the
read-only file- and directory-inspection helpers, which only touch the
real file system and are uninterpreted here. -/
structure Env where
  cmdOutcome : String → CmdOutcome
  spawnRes : String → Option (String × ProcInfo)
  extTool : String → Params → ToolResult

/-- The registered tool names, in the insertion order of
`Tools._register_tools` (`Tools.py:20-90`). -/
def toolNames : List String :=
  ["terminal.run_command", "terminal.start_background_process",
   "terminal.list_background_processes", "terminal.get_process_output",
   "terminal.stop_background_process", "terminal.send_input_to_process",
   "terminal.get_files_and_dirs_at_path", "terminal.get_functions_and_classes",
   "terminal.get_function_content", "terminal.get_file_contents",
   "terminal.get_file_contents_of_type", "terminal.write_file",
   "terminal.append_to_file"]

/-- `Tools.run_tool`'s suffix resolution (`Tools.py:103-108`): a name
without a dot is replaced by the first registered name ending in
`"." + name`. -/
def resolveToolName (fn : String) : String :=
  if fn.toList.contains '.' then fn
  else
    match toolNames.find? (fun full => full.endsWith ("." ++ fn)) with
    | some full => full
    | Option.none => fn

/-- Required and optional keyword parameters of each terminal method, per
its Python signature; used to model the `TypeError` that
`handler(**parameters)` raises on a signature mismatch. -/
def toolSig (fn : String) : List String × List String :=
  if fn = "terminal.run_command" then (["command"], ["timeout"])
  else if fn = "terminal.start_background_process" then (["command"], [])
  else if fn = "terminal.list_background_processes" then ([], [])
  else if fn = "terminal.get_process_output" then (["process_id"], [])
  else if fn = "terminal.stop_background_process" then (["process_id"], [])
  else if fn = "terminal.send_input_to_process" then (["process_id", "input_text"], [])
  else if fn = "terminal.get_files_and_dirs_at_path" then (["path"], [])
  else if fn = "terminal.get_functions_and_classes" then (["path"], ["file_extension"])
  else if fn = "terminal.get_function_content" then (["path", "function_name"], [])
  else if fn = "terminal.get_file_contents" then (["path"], [])
  else if fn = "terminal.get_file_contents_of_type" then (["path", "file_type"], [])
  else (["path", "content"], [])

/-- Whether `handler(**parameters)` binds: every required parameter is
supplied and no unexpected keyword appears. -/
def callSigOk (fn : String) (ps : Params) : Bool :=
  let sig := toolSig fn
  sig.1.all (fun k => paramsHas ps k) &&
    ps.all (fun kv => (sig.1 ++ sig.2).contains kv.1)

/-- `Tools.run_tool` (`Tools.py:102-114`): resolve the name, then call
the registered handler.  A signature mismatch raises (`Except.error`,
caught by the step executor's retry loop); an unregistered name returns
an unknown-function error dictionary.  The read-only inspection helpers
are delegated to the environment oracle. -/
def run_tool (env : Env) (st : TermState) (fn0 : String) (ps : Params) :
    Except String (ToolResult × TermState) :=
  let fn := resolveToolName fn0
  if toolNames.contains fn then
    if !callSigOk fn ps then
      Except.error ("TypeError: invalid arguments for " ++ fn)
    else if fn = "terminal.run_command" then
      let cmd := paramsGetD ps "command" ""
      Except.ok (ToolResult.dict
        (run_command (paramsGetD ps "timeout" "10") (env.cmdOutcome cmd)), st)
    else if fn = "terminal.start_background_process" then
      let cmd := paramsGetD ps "command" ""
      let r := start_background_process st cmd (env.spawnRes cmd)
      Except.ok (ToolResult.dict r.1, r.2)
    else if fn = "terminal.list_background_processes" then
      let r := list_background_processes st
      Except.ok (ToolResult.dictOfDicts r.1, r.2)
    else if fn = "terminal.get_process_output" then
      let r := get_process_output st (paramsGetD ps "process_id" "")
      Except.ok (ToolResult.dict r.1, r.2)
    else if fn = "terminal.stop_background_process" then
      let r := stop_background_process st (paramsGetD ps "process_id" "")
      Except.ok (ToolResult.dict r.1, r.2)
    else if fn = "terminal.send_input_to_process" then
      let r := send_input_to_process st (paramsGetD ps "process_id" "")
        (paramsGetD ps "input_text" "")
      Except.ok (ToolResult.dict r.1, r.2)
    else if fn = "terminal.write_file" then
      let r := write_file st (paramsGetD ps "path" "") (paramsGetD ps "content" "")
      Except.ok (ToolResult.dict r.1, r.2)
    else if fn = "terminal.append_to_file" then
      let r := append_to_file st (paramsGetD ps "path" "") (paramsGetD ps "content" "")
      Except.ok (ToolResult.dict r.1, r.2)
    else
      Except.ok (env.extTool fn ps, st)
  else
    Except.ok (ToolResult.dict [("error", PyVal.str ("Unknown function: " ++ fn))], st)

/-- The auto-correction whitelist of `Agent.run_function`
(`agent.py:77-80`), exactly as in the source (it lists
`get_all_functions_and_class_names`, which is not a registered tool, and
omits two registered ones). -/
def autoCorrectNames : List String :=
  ["write_file", "append_to_file", "run_command", "start_background_process",
   "list_background_processes", "get_process_output", "stop_background_process",
   "send_input_to_process", "get_files_and_dirs_at_path", "get_file_contents",
   "get_file_contents_of_type", "get_all_functions_and_class_names"]

/-- The per-chunk append loop of `chunk_large_file_operations`
(`agent.py:366-371`): append each slice in order; the first append whose
result carries an `error` key aborts the remaining slices and its error
dictionary is handed back (`some err`); `none` means every slice was
appended. -/
def writeChunksLoop (path : String) :
    TermState → List (List Char) → Option PyDict × TermState
  | st, [] => (Option.none, st)
  | st, ch :: rest =>
    let r := append_to_file st path (String.mk ch)
    if dictHasKey r.1 "error" then (some r.1, r.2)
    else writeChunksLoop path r.2 rest

mutual

/-- `Agent.run_function` (`agent.py:75-105`): auto-correct a bare
whitelisted name to its `terminal.` form; names not starting with
`terminal.` yield an unknown-function error; a file-content action whose
payload exceeds 100000 characters is rerouted through
`chunk_large_file_operations` (with its default 50000 chunk size),
everything else goes to `Tools.run_tool`.  The `fuel` argument bounds the
mutual recursion with `chunk_large_fuel`; on every flow the Python code
can reach, the chain is at most `run_function` to chunking to
`run_function` to chunking, because the re-entry uses the default chunk
size and chunking falls back only when the payload is within one chunk,
so the fuel of the public wrappers is never exhausted. -/
def run_function_fuel (env : Env) (fuel : Nat) (st : TermState)
    (fnIn : String) (ps : Params) : Except String (ToolResult × TermState) :=
  let fn := if autoCorrectNames.contains fnIn then "terminal." ++ fnIn else fnIn
  if fn.startsWith "terminal." then
    if (fn = "terminal.write_file" || fn = "terminal.append_to_file") &&
        paramsHas ps "content" then
      if (paramsGetD ps "content" "").length > 100000 then
        match fuel with
        | Nat.succ f => chunk_large_fuel env f st fn ps 50000
        | 0 => Except.error "RecursionError: maximum recursion depth exceeded"
      else run_tool env st fn ps
    else run_tool env st fn ps
  else
    Except.ok (ToolResult.dict [("error", PyVal.str ("Unknown function: " ++ fn))], st)

/-- `Agent.chunk_large_file_operations` (`agent.py:350-375`): for a
file-content action whose payload exceeds the chunk size, a `write_file`
action first truncates the target to empty (the result of that write is
ignored by the source), then the payload's fixed-size slices are appended
in order by `writeChunksLoop`; a slice error is returned as the result,
success reports the number of chunks.  Every other input falls through to
`run_function`. -/
def chunk_large_fuel (env : Env) (fuel : Nat) (st : TermState)
    (fn : String) (ps : Params) (chunkSize : Nat) :
    Except String (ToolResult × TermState) :=
  if (fn = "terminal.write_file" || fn = "terminal.append_to_file") &&
      paramsHas ps "content" then
    let content := paramsGetD ps "content" ""
    let path := paramsGetD ps "path" ""
    if content.length > chunkSize then
      let st1 := if fn = "terminal.write_file" then (write_file st path "").2 else st
      let chunks := chunksOf chunkSize content.toList
      match writeChunksLoop path st1 chunks with
      | (some err, st2) => Except.ok (ToolResult.dict err, st2)
      | (Option.none, st2) =>
        Except.ok (ToolResult.dict
          [("success", PyVal.bool true),
           ("message", PyVal.str ("File " ++ path ++ " written successfully in " ++
              toString chunks.length ++ " chunks"))], st2)
    else run_function_fuel env fuel st fn ps
  else run_function_fuel env fuel st fn ps

end

/-- `Agent.run_function` at the fuel that covers every reachable flow. -/
def run_function (env : Env) (st : TermState) (fn : String) (ps : Params) :
    Except String (ToolResult × TermState) :=
  run_function_fuel env 2 st fn ps

/-- `Agent.chunk_large_file_operations` with its default chunk size of
50000, at the fuel that covers every reachable flow. -/
def chunk_large_file_operations (env : Env) (st : TermState) (fn : String)
    (ps : Params) (chunkSize : Nat := 50000) :
    Except String (ToolResult × TermState) :=
  chunk_large_fuel env 2 st fn ps chunkSize

/-- The heap of result objects referenced by the task history.  Python's
history list stores references to the result dictionaries; to reason
about mutation versus copying, the results live in this store and the
history holds indices into it. -/
abbrev Store := List ToolResult

/-- Dereference a store pointer. -/
def heapRead (store : Store) (p : Nat) : ToolResult :=
  store.getD p (ToolResult.dict [])

/-- Allocate a new result object, returning its address. -/
def heapAlloc (store : Store) (r : ToolResult) : Nat × Store :=
  (store.length, store ++ [r])

/-- Overwrite the object at an address. -/
def heapWrite (store : Store) (p : Nat) (r : ToolResult) : Store :=
  store.set p r

/-- The truncation marker appended by the history replay
(`agent.py:178-183`). -/
def truncMarker : String := "... [output truncated]"

/-- One truncation test of the history replay (`agent.py:176-179` for
`stdout`, `agent.py:180-183` for `stderr`): if the currently referenced
result is a dictionary whose `key` entry is a string longer than 500
characters, rebind to a copy (`result = result.copy()`, modelled as an
allocation holding the old value) and truncate the copy's entry in place
(a write through the new address); otherwise leave the reference and the
heap alone. -/
def truncPhase (key : String) (pr : Nat × Store) : Nat × Store :=
  let r := heapRead pr.2 pr.1
  match r with
  | ToolResult.dict d =>
    match dictGet d key with
    | some (PyVal.str s) =>
      if s.length > 500 then
        let a := heapAlloc pr.2 r
        (a.1, heapWrite a.2 a.1
          (ToolResult.dict (dictSet d key (PyVal.str (s.take 500 ++ truncMarker)))))
      else pr
    | _ => pr
  | _ => pr

/-- The per-entry truncation of the history replay (`agent.py:176-183`):
the `stdout` test on the referenced result, then the `stderr` test on
the possibly copied result.  Returns the address the rendering will use
and the heap after the copies. -/
def replayResultPtr (store : Store) (ptr : Nat) : Nat × Store :=
  truncPhase "stderr" (truncPhase "stdout" (ptr, store))

/-- Rendering of a result value into the replayed prompt text,
abstracting the concrete `json.dumps(result, indent=2)` /
`str(result)` formatting of `agent.py:185`, which no claim constrains. -/
def renderPyVal : PyVal → String
  | PyVal.str s => "\x22" ++ s ++ "\x22"
  | PyVal.int n => toString n
  | PyVal.bool b => if b then "true" else "false"
  | PyVal.null => "null"

/-- Render a dictionary for the replayed prompt text. -/
def renderPyDict (d : PyDict) : String :=
  "\x7b" ++ String.intercalate ", "
    (d.map (fun kv => "\x22" ++ kv.1 ++ "\x22: " ++ renderPyVal kv.2)) ++ "\x7d"

/-- Render a tool result for the replayed prompt text. -/
def renderToolResult : ToolResult → String
  | ToolResult.dict d => renderPyDict d
  | ToolResult.dictOfDicts m =>
    "\x7b" ++ String.intercalate ", "
      (m.map (fun kv => "\x22" ++ kv.1 ++ "\x22: " ++ renderPyDict kv.2)) ++ "\x7d"
  | ToolResult.strList l =>
    "[" ++ String.intercalate ", " (l.map (fun s => "\x22" ++ s ++ "\x22")) ++ "]"
  | ToolResult.str s => s

/-- The fold inside the history replay loop of `execute_step`
(`agent.py:174-185`), threading the accumulated text, the one-based step
counter and the heap. -/
def buildHistoryGo (acc : String) (i : Nat) (store : Store) :
    List (String × Nat) → String × Store
  | [] => (acc, store)
  | kv :: rest =>
    let rp := replayResultPtr store kv.2
    let entry := "\nStep " ++ toString i ++ ": " ++ kv.1 ++ ", Result: " ++
      renderToolResult (heapRead rp.2 rp.1)
    buildHistoryGo (acc ++ entry) (i + 1) rp.2 rest

/-- The history replay of `execute_step` (`agent.py:174-185`): render
every (action label, result pointer) pair in order, truncating
over-long `stdout`/`stderr` strings on copies. -/
def buildHistoryText (store : Store) (history : List (String × Nat)) :
    String × Store :=
  buildHistoryGo "" 1 store history

/-- State of one `Agent` instance as far as the core is concerned: its
terminal, the result heap, the task history of (formatted call, result
pointer) pairs, and the count of recorded response errors. -/
structure AgentState where
  term : TermState
  store : Store
  history : List (String × Nat)
  responseErrors : Nat
deriving DecidableEq, Repr

/-- The quadruple returned by `Agent.execute_step`: completion flag,
thought, formatted function call, and result. -/
structure StepReturn where
  done : Bool
  thought : String
  functionCall : Option String
  result : Option ToolResult
deriving DecidableEq, Repr

/-- `Agent.format_function_call` (`agent.py:57-73`); parameter values
are always strings here, as produced by the extractor. -/
def formatParamValue (v : String) : String :=
  if v.length > 50 then "\x22" ++ v.take 47 ++ "...\x22"
  else "\x22" ++ v ++ "\x22"

/-- `Agent.format_function_call` (`agent.py:57-73`). -/
def format_function_call (fn : String) (ps : Params) : String :=
  if ps.isEmpty then fn ++ "()"
  else
    fn ++ "(" ++ String.intercalate ", "
      (ps.map (fun kv => kv.1 ++ "=" ++ formatParamValue kv.2)) ++ ")"

/-- The stop-everything pass shared by the completion branch of
`execute_step` (`agent.py:319-321`) and the `finally` block of
`solve_task` (`agent.py:434-436`): list the background processes (which
garbage-collects dead records) and call stop on every listed id. -/
def stopAllProcesses (st : TermState) : TermState :=
  let r := list_background_processes st
  r.1.foldl (fun acc kv => (stop_background_process acc kv.1).2) r.2

/-- The validity gate of the step executor (`agent.py:281`): a decision
is rejected when it carries no truthy action name and no completion. -/
def decisionInvalid (d : Decision) : Bool :=
  !(pyTruthyStr d.function) && !d.task_complete

/-- The decision handling of `execute_step` after a valid parse
(`agent.py:299-325`): an action with completion false runs the function,
appends to the history and returns not-done; a completion-flagged
decision stops every background process and returns done without
dispatching any action; the remaining case returns a no-function error
result.  A dispatch exception propagates to the retry loop. -/
def dispatchDecision (env : Env) (st : AgentState) (d : Decision) :
    Except String (StepReturn × AgentState) :=
  if pyTruthyStr d.function && !d.task_complete then
    let fn := d.function.getD ""
    let formatted := format_function_call fn d.parameters
    match run_function env st.term fn d.parameters with
    | Except.error e => Except.error e
    | Except.ok r =>
      let alloc := heapAlloc st.store r.1
      Except.ok
        ({ done := false, thought := d.thought, functionCall := some formatted,
           result := some r.1 },
         { st with term := r.2, store := alloc.2,
                   history := st.history ++ [(formatted, alloc.1)] })
  else if d.task_complete then
    Except.ok
      ({ done := true, thought := d.thought, functionCall := Option.none,
         result := Option.none },
       { st with term := stopAllProcesses st.term })
  else
    Except.ok
      ({ done := false, thought := d.thought, functionCall := Option.none,
         result := some (ToolResult.dict
           [("error", PyVal.str "No function specified but task not marked as complete")]) },
       st)

/-- One model exchange as the retry loop observes it: either reply text,
or an exception raised during the round trip. -/
inductive ClientReply where
  | reply : String → ClientReply
  | raise : String → ClientReply
deriving DecidableEq, Repr

/-- The retry loop of `execute_step` (`agent.py:250-348`), indexed by the
attempt number (`retry_count`) and the remaining retry budget
(`max_retries - retry_count`).  Each iteration performs one model round
trip; an exception or an invalid decision retries while budget remains
and otherwise returns the terminal failure quadruple of the source (the
exception path also records the error).  The third component counts the
round trips performed. -/
def stepAttempts (env : Env) (client : Nat → ClientReply) (st : AgentState)
    (attempt budget : Nat) : StepReturn × AgentState × Nat :=
  match client attempt with
    | ClientReply.raise e =>
      match budget with
      | Nat.succ b =>
        let r := stepAttempts env client st (attempt + 1) b
        (r.1, r.2.1, r.2.2 + 1)
      | 0 =>
        ({ done := false, thought := "", functionCall := Option.none,
           result := some (ToolResult.dict
             [("error", PyVal.str ("Error processing step: " ++ e))]) },
         { st with responseErrors := st.responseErrors + 1 }, 1)
    | ClientReply.reply text =>
      let ed := extract_response_from_tags text
      if decisionInvalid ed.1 then
        match budget with
        | Nat.succ b =>
          let r := stepAttempts env client st (attempt + 1) b
          (r.1, r.2.1, r.2.2 + 1)
        | 0 =>
          ({ done := false, thought := "", functionCall := Option.none,
             result := some (ToolResult.dict
               [("error", PyVal.str ("Failed to extract valid response structure: " ++ ed.2))]) },
           st, 1)
      else
        match dispatchDecision env st ed.1 with
        | Except.ok r => (r.1, r.2, 1)
        | Except.error e =>
          match budget with
          | Nat.succ b =>
            let r := stepAttempts env client st (attempt + 1) b
            (r.1, r.2.1, r.2.2 + 1)
          | 0 =>
            ({ done := false, thought := "", functionCall := Option.none,
               result := some (ToolResult.dict
                 [("error", PyVal.str ("Error processing step: " ++ e))]) },
             { st with responseErrors := st.responseErrors + 1 }, 1)

/-- `Agent.execute_step` (`agent.py:170-348`): build the prompt (which
replays the history through the truncating copy pass), then run the
retry loop with the default retry ceiling of 2.  The client function
abstracts the provider round trip of `agent.py:258-277`. -/
def execute_step (env : Env) (client : Nat → ClientReply) (st : AgentState)
    (maxRetries : Nat := 2) : StepReturn × AgentState × Nat :=
  let built := buildHistoryText st.store st.history
  stepAttempts env client { st with store := built.2 } 0 maxRetries

/-- Outcome of one pass through the body of the `while` loop in
`solve_task` (`agent.py:386-423`): the quadruple returned by
`execute_step` together with the agent state, or an exception escaping
the body (the body also performs presentation I/O, so exceptions can
surface even though `execute_step` catches its own). -/
inductive BodyOutcome where
  | ret : StepReturn → AgentState → BodyOutcome
  | raised : String → AgentState → BodyOutcome

/-- The `while step <= max_steps` loop of `solve_task`
(`agent.py:386-431`), abstracted over the loop body: a body exception
aborts the loop carrying the exception, a done step returns `True`,
exhausting the budget returns `False`. -/
def solveTaskLoop (body : Nat → AgentState → BodyOutcome) :
    AgentState → (stepsLeft stepNum : Nat) → Except String Bool × AgentState
  | st, 0, _ => (Except.ok false, st)
  | st, Nat.succ n, k =>
    match body k st with
    | BodyOutcome.raised e st' => (Except.error e, st')
    | BodyOutcome.ret r st' =>
      if r.done then (Except.ok true, st')
      else solveTaskLoop body st' n (k + 1)

/-- `Agent.solve_task` (`agent.py:377-436`): drive the loop body for up
to `maxSteps` steps starting at step 1; the `finally` block
(`agent.py:433-436`) runs `stopAllProcesses` on the way out of every
exit path, without altering the outcome (a pending exception
propagates). -/
def solve_task (body : Nat → AgentState → BodyOutcome) (maxSteps : Nat)
    (st0 : AgentState) : Except String Bool × AgentState :=
  let l := solveTaskLoop body st0 maxSteps 1
  (l.1, { l.2 with term := stopAllProcesses l.2.term })

/-- One call into the terminal from anywhere in the system, used to state
properties over arbitrary continuations of a terminal state.  A `spawn`
carries the identifier and record the OS and uuid generator would
produce (`none` for a spawn failure). -/
inductive TermOp where
  | peek : String → TermOp
  | stop : String → TermOp
  | sendInput : String → String → TermOp
  | listProcs : TermOp
  | spawn : String → Option (String × ProcInfo) → TermOp
  | writeF : String → String → TermOp
  | appendF : String → String → TermOp

/-- The state effect of one terminal call. -/
def applyOp (st : TermState) : TermOp → TermState
  | TermOp.peek pid => (get_process_output st pid).2
  | TermOp.stop pid => (stop_background_process st pid).2
  | TermOp.sendInput pid txt => (send_input_to_process st pid txt).2
  | TermOp.listProcs => (list_background_processes st).2
  | TermOp.spawn cmd res => (start_background_process st cmd res).2
  | TermOp.writeF p c => (write_file st p c).2
  | TermOp.appendF p c => (append_to_file st p c).2

/-- Whether an operation registers the identifier `pid`.  Only a spawn
whose generated uuid is `pid` does; `uuid4` identifiers are never reused
within one manager instance, which theorems state as this predicate
being false along the continuation. -/
def opSpawnsId (op : TermOp) (pid : String) : Bool :=
  match op with
  | TermOp.spawn _ (some r) => r.1 == pid
  | _ => false

/-- A concrete environment for evaluating the definitions on closed
inputs. -/
def env0 : Env :=
  { cmdOutcome := fun _ => CmdOutcome.timedOut "" ""
    spawnRes := fun _ => Option.none
    extTool := fun _ _ => ToolResult.dict [] }

/-- A concrete terminal state with an empty registry and no scheduled
I/O faults. -/
def term0 : TermState :=
  { cwd := "/w", fs := [], procs := [], events := [], now := 0, ioFaults := [] }

/-- A concrete agent state over `term0`. -/
def agent0 : AgentState :=
  { term := term0, store := [], history := [], responseErrors := 0 }

/-- A concrete record of a process that polls as alive. -/
def liveProc : ProcInfo :=
  { command := "python3 server.py", startTime := 0, stdout := "ready", stderr := ""
    alive := true, returncode := 0, aliveAfterTerm := false
    killRaises := Option.none, stdinRaises := Option.none }

/-- A concrete record of a process that polls as dead with exit code 7. -/
def deadProc : ProcInfo :=
  { command := "sleep 1", startTime := 0, stdout := "out", stderr := "err"
    alive := false, returncode := 7, aliveAfterTerm := false
    killRaises := Option.none, stdinRaises := Option.none }

/-- A concrete model reply carrying both a non-null action name and a
true completion flag. -/
def replyBoth : String :=
  "<thought>run it and finish</thought>\n<function>terminal.run_command</function>\n" ++
  "<parameters>\ncommand: ls\n</parameters>\n<task_complete>true</task_complete>"

/-- A 501-character output string, one character over the replay cap. -/
def longOut : String := String.mk (List.replicate 501 'a')

/-- A concrete terminal state with one registered process that polls as
dead. -/
def stD : TermState := { term0 with procs := [("p", deadProc)] }

/-- A concrete terminal state with one registered process that polls as
alive. -/
def stL : TermState := { term0 with procs := [("p", liveProc)] }

/-- A concrete continuation of terminal calls: a spawn of a fresh id and
a listing pass. -/
def ops0 : List TermOp :=
  [TermOp.spawn "sleep 5" (some ("q", liveProc)), TermOp.listProcs]

/-- A concrete loop body that registers a live background process and
then raises out of the loop. -/
def body0 : Nat → AgentState → BodyOutcome :=
  fun _ st => BodyOutcome.raised "interrupted"
    { st with term := { st.term with procs := [("p", liveProc)] } }

/-- A model client whose replies never parse to a valid decision. -/
def alwaysInvalidClient : Nat → ClientReply :=
  fun _ => ClientReply.reply ""

/-- A model client that always sends `replyBoth`. -/
def clientBoth : Nat → ClientReply :=
  fun _ => ClientReply.reply replyBoth

/-- A concrete result heap whose only entry has an over-cap stdout. -/
def storeLong : Store :=
  [ToolResult.dict [("stdout", PyVal.str longOut), ("returncode", PyVal.int 0)]]

/-- A concrete history referencing `storeLong`. -/
def histLong : List (String × Nat) := [("terminal.run_command()", 0)]

/-- The heap `s'` extends the heap `s`: the original segment is intact
and only new cells were appended. -/
def storePrefix (s s' : Store) : Prop :=
  s'.take s.length = s ∧ s.length ≤ s'.length

/-! Registry lemmas. -/

theorem regFind_eq_none_iff (reg : Registry) (pid : String) :
    regFind reg pid = Option.none ↔ ∀ kv ∈ reg, kv.1 ≠ pid := by
  unfold regFind
  cases h : reg.find? (fun kv => kv.1 == pid) with
  | none =>
    simp only [true_iff]
    rw [List.find?_eq_none] at h
    intro kv hkv
    simpa using h kv hkv
  | some kv =>
    simp only [reduceCtorEq, false_iff, not_forall]
    have hmem := List.mem_of_find?_eq_some h
    have hp := List.find?_some h
    exact ⟨kv, hmem, by simpa using hp⟩

theorem regFind_erase_self (reg : Registry) (pid : String) :
    regFind (regErase reg pid) pid = Option.none := by
  rw [regFind_eq_none_iff]
  intro kv hkv
  have := List.of_mem_filter hkv
  simpa using this

theorem regErase_of_none (reg : Registry) (pid : String)
    (h : regFind reg pid = Option.none) : regErase reg pid = reg := by
  rw [regFind_eq_none_iff] at h
  unfold regErase
  rw [List.filter_eq_self]
  intro kv hkv
  simpa using h kv hkv

theorem regFind_none_filter (reg : Registry) (pid : String)
    (f : String × ProcInfo → Bool) (h : regFind reg pid = Option.none) :
    regFind (reg.filter f) pid = Option.none := by
  rw [regFind_eq_none_iff] at h ⊢
  intro kv hkv
  exact h kv (List.mem_of_mem_filter hkv)

theorem regFind_none_append (reg : Registry) (pid q : String) (i : ProcInfo)
    (h : regFind reg pid = Option.none) (hq : q ≠ pid) :
    regFind (reg ++ [(q, i)]) pid = Option.none := by
  rw [regFind_eq_none_iff] at h ⊢
  intro kv hkv
  rcases List.mem_append.mp hkv with hl | hr
  · exact h kv hl
  · simp only [List.mem_singleton] at hr
    subst hr
    exact hq

theorem regFind_filter_ne (reg : Registry) (pid q : String) (hne : q ≠ pid) :
    regFind (reg.filter (fun kv => kv.1 != q)) pid = regFind reg pid := by
  induction reg with
  | nil => rfl
  | cons kv rest ih =>
    by_cases hk : kv.1 = pid
    · have hcond : (kv.1 != q) = true := by
        rw [bne_iff_ne, hk]
        exact fun hqq => hne hqq.symm
      simp only [List.filter_cons, hcond, if_pos]
      unfold regFind
      rw [List.find?_cons_of_pos _ (by simpa using hk),
        List.find?_cons_of_pos _ (by simpa using hk)]
    · by_cases hq : kv.1 = q
      · have hcond : (kv.1 != q) = false := by simp [hq]
        have hstep : List.filter (fun kv => kv.1 != q) (kv :: rest) =
            List.filter (fun kv => kv.1 != q) rest := by
          simp [List.filter_cons, hcond]
        rw [hstep, ih]
        unfold regFind
        rw [List.find?_cons_of_neg _ (by simpa using hk)]
      · have : (kv.1 != q) = true := by simpa using hq
        simp only [List.filter_cons, this, if_pos]
        unfold regFind
        rw [List.find?_cons_of_neg _ (by simpa using hk),
          List.find?_cons_of_neg _ (by simpa using hk)]
        exact ih

theorem regFind_some_key_mem (reg : Registry) (pid : String) (info : ProcInfo)
    (h : regFind reg pid = some info) : pid ∈ reg.map Prod.fst := by
  unfold regFind at h
  cases hf : reg.find? (fun kv => kv.1 == pid) with
  | none => rw [hf] at h; exact absurd h (by simp)
  | some kv =>
    have hmem := List.mem_of_find?_eq_some hf
    have hp := List.find?_some hf
    have : kv.1 = pid := by simpa using hp
    exact this ▸ List.mem_map_of_mem Prod.fst hmem

theorem regFind_filter_alive (reg : Registry) (pid : String) (info : ProcInfo)
    (h : regFind reg pid = some info) (halive : info.alive = true) :
    regFind (reg.filter (fun kv => kv.2.alive)) pid = some info := by
  induction reg with
  | nil => exact absurd h (by simp [regFind])
  | cons kv rest ih =>
    by_cases hk : kv.1 = pid
    · have hfound : regFind (kv :: rest) pid = some kv.2 := by
        unfold regFind
        rw [List.find?_cons_of_pos _ (by simpa using hk)]
      rw [hfound] at h
      obtain rfl : kv.2 = info := by injection h
      simp only [List.filter_cons, halive, if_pos]
      unfold regFind
      rw [List.find?_cons_of_pos _ (by simpa using hk)]
    · have hrest : regFind rest pid = some info := by
        unfold regFind at h ⊢
        rwa [List.find?_cons_of_neg _ (by simpa using hk)] at h
      have ihr := ih hrest
      by_cases ha : kv.2.alive
      · simp only [List.filter_cons, ha, if_pos]
        unfold regFind at ihr ⊢
        rwa [List.find?_cons_of_neg _ (by simpa using hk)]
      · simp only [List.filter_cons, ha, if_neg]
        exact ihr

/-! Stop and cleanup lemmas. -/

theorem stop_procs (st : TermState) (pid : String) :
    ((stop_background_process st pid).2).procs = regErase st.procs pid := by
  unfold stop_background_process
  cases h : regFind st.procs pid with
  | none => simp [regErase_of_none st.procs pid h]
  | some info =>
    simp only [h]
    by_cases ha : info.alive
    · cases hk : info.killRaises with
      | none => simp [ha, hk]
      | some e => simp [ha, hk]
    · simp [ha]

theorem stop_events_mono (st : TermState) (pid : String) (e : String)
    (he : e ∈ st.events) : e ∈ ((stop_background_process st pid).2).events := by
  unfold stop_background_process
  cases h : regFind st.procs pid with
  | none => simpa using he
  | some info =>
    simp only [h]
    by_cases ha : info.alive
    · cases hk : info.killRaises with
      | none =>
        simp only [ha, hk, if_pos]
        exact List.mem_append_left _ he
      | some e2 => simpa [ha, hk] using he
    · simpa [ha] using he

theorem stop_event_emit (st : TermState) (pid : String) (info : ProcInfo)
    (h : regFind st.procs pid = some info) (ha : info.alive = true)
    (hk : info.killRaises = Option.none) :
    ("SIGTERM:" ++ pid) ∈ ((stop_background_process st pid).2).events := by
  unfold stop_background_process
  simp only [h, ha, hk]
  by_cases hat : info.aliveAfterTerm
  · simp [hat]
  · simp [hat]

theorem listBg_procs (st : TermState) :
    (list_background_processes st).2.procs =
      st.procs.filter (fun kv => kv.2.alive) := rfl

theorem listBg_keys (st : TermState) :
    ((list_background_processes st).1).map Prod.fst = st.procs.map Prod.fst := by
  unfold list_background_processes
  simp [List.map_map]

theorem foldStop_procs_empty :
    ∀ (l : List (String × PyDict)) (st : TermState),
      (∀ kv ∈ st.procs, kv.1 ∈ l.map Prod.fst) →
      (l.foldl (fun acc kv => (stop_background_process acc kv.1).2) st).procs = [] := by
  intro l
  induction l with
  | nil =>
    intro st h
    simp only [List.foldl_nil]
    rw [List.eq_nil_iff_forall_not_mem]
    intro kv hkv
    exact absurd (h kv hkv) (by simp)
  | cons q rest ih =>
    intro st h
    simp only [List.foldl_cons]
    apply ih
    intro kv hkv
    rw [stop_procs] at hkv
    have hmem := List.mem_of_mem_filter hkv
    have hne : kv.1 ≠ q.1 := by
      have := List.of_mem_filter hkv
      simpa using this
    have hkey := h kv hmem
    simp only [List.map_cons, List.mem_cons] at hkey
    rcases hkey with h1 | h2
    · exact absurd h1 hne
    · exact h2

theorem foldStop_events_mono :
    ∀ (l : List (String × PyDict)) (st : TermState) (e : String),
      e ∈ st.events →
      e ∈ (l.foldl (fun acc kv => (stop_background_process acc kv.1).2) st).events := by
  intro l
  induction l with
  | nil => intro st e he; simpa using he
  | cons q rest ih =>
    intro st e he
    exact ih _ _ (stop_events_mono _ _ _ he)

theorem foldStop_event_reach :
    ∀ (l : List (String × PyDict)) (st : TermState) (pid : String) (info : ProcInfo),
      pid ∈ l.map Prod.fst → regFind st.procs pid = some info →
      info.alive = true → info.killRaises = Option.none →
      ("SIGTERM:" ++ pid) ∈
        (l.foldl (fun acc kv => (stop_background_process acc kv.1).2) st).events := by
  intro l
  induction l with
  | nil =>
    intro st pid info hmem _ _ _
    exact absurd hmem (by simp)
  | cons q rest ih =>
    intro st pid info hmem hfind ha hk
    simp only [List.foldl_cons]
    by_cases hq : q.1 = pid
    · subst hq
      exact foldStop_events_mono rest _ _ (stop_event_emit st q.1 info hfind ha hk)
    · have hpres : regFind ((stop_background_process st q.1).2).procs pid = some info := by
        rw [stop_procs]
        unfold regErase
        rw [regFind_filter_ne st.procs pid q.1 hq]
        exact hfind
      have hmem' : pid ∈ rest.map Prod.fst := by
        simp only [List.map_cons, List.mem_cons] at hmem
        rcases hmem with h1 | h2
        · exact absurd h1.symm hq
        · exact h2
      exact ih _ pid info hmem' hpres ha hk

theorem stopAll_procs (st : TermState) : (stopAllProcesses st).procs = [] := by
  unfold stopAllProcesses
  apply foldStop_procs_empty
  intro kv hkv
  have hkv' : kv ∈ st.procs := by
    rw [listBg_procs] at hkv
    exact List.mem_of_mem_filter hkv
  rw [listBg_keys]
  exact List.mem_map_of_mem Prod.fst hkv'

theorem stopAll_event (st : TermState) (pid : String) (info : ProcInfo)
    (hfind : regFind st.procs pid = some info) (ha : info.alive = true)
    (hk : info.killRaises = Option.none) :
    ("SIGTERM:" ++ pid) ∈ (stopAllProcesses st).events := by
  unfold stopAllProcesses
  apply foldStop_event_reach
  · rw [listBg_keys]
    exact regFind_some_key_mem st.procs pid info hfind
  · rw [listBg_procs]
    exact regFind_filter_alive st.procs pid info hfind ha
  · exact ha
  · exact hk

/-! Chunking and file-system lemmas. -/

theorem stringMk_append (a b : List Char) :
    String.mk a ++ String.mk b = String.mk (a ++ b) := rfl

theorem string_append_mk_assoc (s : String) (a b : List Char) :
    s ++ String.mk a ++ String.mk b = s ++ String.mk (a ++ b) := by
  cases s with
  | mk l =>
    show String.mk (l ++ a ++ b) = String.mk (l ++ (a ++ b))
    rw [List.append_assoc]

theorem chunksOf_join (c : Nat) (hc : 0 < c) :
    ∀ (l : List Char), (chunksOf c l).flatten = l := by
  have H : ∀ (n : Nat) (l : List Char), l.length ≤ n → (chunksOf c l).flatten = l := by
    intro n
    induction n with
    | zero =>
      intro l hl
      have hnil : l = [] := List.eq_nil_of_length_eq_zero (Nat.le_zero.mp hl)
      subst hnil
      rw [chunksOf, dif_pos (Or.inr rfl)]
      rfl
    | succ n ih =>
      intro l hl
      by_cases hnil : l = []
      · subst hnil
        rw [chunksOf, dif_pos (Or.inr rfl)]
        rfl
      · rw [chunksOf, dif_neg (by push_neg; exact ⟨by omega, hnil⟩)]
        simp only [List.flatten_cons]
        rw [ih (l.drop c) (by
          simp only [List.length_drop]
          have : 0 < l.length := List.length_pos.mpr hnil
          omega)]
        exact List.take_append_drop c l
  exact fun l => H l.length l le_rfl

theorem chunksOf_length (c : Nat) (hc : 0 < c) :
    ∀ (l : List Char), (chunksOf c l).length = (l.length + c - 1) / c := by
  have H : ∀ (n : Nat) (l : List Char), l.length ≤ n →
      (chunksOf c l).length = (l.length + c - 1) / c := by
    intro n
    induction n with
    | zero =>
      intro l hl
      have hnil : l = [] := List.eq_nil_of_length_eq_zero (Nat.le_zero.mp hl)
      subst hnil
      rw [chunksOf, dif_pos (Or.inr rfl)]
      show (0 : Nat) = (0 + c - 1) / c
      rw [Nat.div_eq_of_lt (by omega)]
    | succ n ih =>
      intro l hl
      by_cases hnil : l = []
      · subst hnil
        rw [chunksOf, dif_pos (Or.inr rfl)]
        show (0 : Nat) = (0 + c - 1) / c
        rw [Nat.div_eq_of_lt (by omega)]
      · rw [chunksOf, dif_neg (by push_neg; exact ⟨by omega, hnil⟩)]
        have hlen : 0 < l.length := List.length_pos.mpr hnil
        simp only [List.length_cons]
        rw [ih (l.drop c) (by simp only [List.length_drop]; omega)]
        simp only [List.length_drop]
        by_cases hle : l.length ≤ c
        · have h1 : l.length - c = 0 := by omega
          rw [h1, Nat.div_eq_of_lt (show 0 + c - 1 < c by omega)]
          rw [show l.length + c - 1 = (l.length - 1) + c by omega,
            Nat.add_div_right _ hc, Nat.div_eq_of_lt (show l.length - 1 < c by omega)]
        · push_neg at hle
          rw [show l.length - c + c - 1 = (l.length - c - 1) + c by omega,
            Nat.add_div_right _ hc,
            show l.length + c - 1 = (l.length - 1) + c by omega,
            Nat.add_div_right _ hc,
            show l.length - 1 = (l.length - c - 1) + c by omega,
            Nat.add_div_right _ hc]
  exact fun l => H l.length l le_rfl

theorem chunksOf_take_join (c : Nat) (hc : 0 < c) :
    ∀ (k : Nat) (l : List Char), ((chunksOf c l).take k).flatten = l.take (k * c) := by
  intro k
  induction k with
  | zero => intro l; simp
  | succ k ih =>
    intro l
    by_cases hnil : l = []
    · subst hnil
      rw [chunksOf, dif_pos (Or.inr rfl)]
      simp
    · rw [chunksOf, dif_neg (by push_neg; exact ⟨by omega, hnil⟩)]
      simp only [List.take_succ_cons, List.flatten_cons]
      rw [ih, show (k + 1) * c = c + k * c by ring, List.take_add]

theorem find_map_replace (p v : String) :
    ∀ (fs : List (String × String)), fs.any (fun kv => kv.1 == p) →
      (fs.map (fun kv => if kv.1 == p then (p, v) else kv)).find?
        (fun kv => kv.1 == p) = some (p, v) := by
  intro fs
  induction fs with
  | nil => intro h; simp at h
  | cons kv rest ih =>
    intro h
    by_cases hk : kv.1 = p
    · have hb : (kv.1 == p) = true := by simpa using hk
      simp only [List.map_cons, hb, if_pos]
      rw [List.find?_cons_of_pos _ (by simp)]
    · have hb : (kv.1 == p) = false := by simpa using hk
      simp only [List.map_cons, hb, Bool.false_eq_true, if_false]
      rw [List.find?_cons_of_neg _ (by simpa using hk)]
      apply ih
      simp only [List.any_cons, hb, Bool.false_or] at h
      exact h

theorem find_append_self (p v : String) :
    ∀ (fs : List (String × String)), ¬ fs.any (fun kv => kv.1 == p) →
      (fs ++ [(p, v)]).find? (fun kv => kv.1 == p) = some (p, v) := by
  intro fs
  induction fs with
  | nil =>
    intro _
    simp only [List.nil_append]
    rw [List.find?_cons_of_pos _ (by simp)]
  | cons kv rest ih =>
    intro h
    simp only [List.any_cons, Bool.or_eq_true, not_or] at h
    simp only [List.cons_append]
    rw [List.find?_cons_of_neg _ (by simpa using h.1)]
    exact ih (by simpa using h.2)

theorem fsRead_fsSet_self (fs : List (String × String)) (p v : String) :
    fsRead (fsSet fs p v) p = v := by
  unfold fsSet fsRead
  by_cases h : fs.any (fun kv => kv.1 == p)
  · rw [if_pos h, find_map_replace p v fs h]
  · rw [if_neg h, find_append_self p v fs h]

theorem string_append_mk_nil (s : String) : s ++ String.mk [] = s := by
  cases s with
  | mk l =>
    show String.mk (l ++ []) = String.mk l
    rw [List.append_nil]

theorem append_to_file_ok_nil (st : TermState) (path content : String)
    (h : st.ioFaults = []) :
    append_to_file st path content =
      ([("success", PyVal.bool true),
        ("message", PyVal.str ("Content appended to " ++ path ++ " successfully"))],
       { st with fs := fsSet st.fs path (fsRead st.fs path ++ content) }) := by
  obtain ⟨cwd, fs, procs, events, now, ioF⟩ := st
  have h' : ioF = [] := h
  subst h'
  rfl

theorem append_to_file_ok_cons (st : TermState) (path content : String)
    (tl : List (Option String)) (h : st.ioFaults = Option.none :: tl) :
    append_to_file st path content =
      ([("success", PyVal.bool true),
        ("message", PyVal.str ("Content appended to " ++ path ++ " successfully"))],
       { st with fs := fsSet st.fs path (fsRead st.fs path ++ content),
                 ioFaults := tl }) := by
  obtain ⟨cwd, fs, procs, events, now, ioF⟩ := st
  have h' : ioF = Option.none :: tl := h
  subst h'
  rfl

theorem append_to_file_err (st : TermState) (path content e : String)
    (tl : List (Option String)) (h : st.ioFaults = some e :: tl) :
    append_to_file st path content =
      ([("error", PyVal.str e)], { st with ioFaults := tl }) := by
  obtain ⟨cwd, fs, procs, events, now, ioF⟩ := st
  have h' : ioF = some e :: tl := h
  subst h'
  rfl

theorem writeChunksLoop_cons_ok (path : String) (st stMid : TermState)
    (ch : List Char) (rest : List (List Char))
    (happend : append_to_file st path (String.mk ch) =
      ([("success", PyVal.bool true),
        ("message", PyVal.str ("Content appended to " ++ path ++ " successfully"))],
       stMid)) :
    writeChunksLoop path st (ch :: rest) = writeChunksLoop path stMid rest := by
  rw [writeChunksLoop, happend]
  rfl

theorem writeChunksLoop_cons_err (path e : String) (st stMid : TermState)
    (ch : List Char) (rest : List (List Char))
    (happend : append_to_file st path (String.mk ch) =
      ([("error", PyVal.str e)], stMid)) :
    writeChunksLoop path st (ch :: rest) = (some [("error", PyVal.str e)], stMid) := by
  rw [writeChunksLoop, happend]
  rfl

theorem writeChunksLoop_ok :
    ∀ (chunks : List (List Char)) (st : TermState) (path : String),
      st.ioFaults = [] →
      (writeChunksLoop path st chunks).1 = Option.none ∧
      (writeChunksLoop path st chunks).2.ioFaults = [] ∧
      fsRead (writeChunksLoop path st chunks).2.fs path =
        fsRead st.fs path ++ String.mk chunks.flatten := by
  intro chunks
  induction chunks with
  | nil =>
    intro st path h0
    refine ⟨rfl, h0, ?_⟩
    show fsRead st.fs path = fsRead st.fs path ++ String.mk []
    rw [string_append_mk_nil]
  | cons ch rest ih =>
    intro st path h0
    rw [writeChunksLoop_cons_ok path st
      { st with fs := fsSet st.fs path (fsRead st.fs path ++ String.mk ch) }
      ch rest (append_to_file_ok_nil st path (String.mk ch) h0)]
    obtain ⟨h1, h2, h3⟩ := ih
      { st with fs := fsSet st.fs path (fsRead st.fs path ++ String.mk ch) } path h0
    refine ⟨h1, h2, ?_⟩
    rw [h3]
    show fsRead (fsSet st.fs path (fsRead st.fs path ++ String.mk ch)) path ++
        String.mk rest.flatten =
      fsRead st.fs path ++ String.mk (ch :: rest).flatten
    rw [fsRead_fsSet_self, List.flatten_cons, string_append_mk_assoc]

theorem writeChunksLoop_fault :
    ∀ (k : Nat) (chunks : List (List Char)) (st : TermState) (path e : String)
      (tl : List (Option String)),
      st.ioFaults = List.replicate k Option.none ++ some e :: tl →
      k < chunks.length →
      (writeChunksLoop path st chunks).1 = some [("error", PyVal.str e)] ∧
      fsRead (writeChunksLoop path st chunks).2.fs path =
        fsRead st.fs path ++ String.mk ((chunks.take k).flatten) := by
  intro k
  induction k with
  | zero =>
    intro chunks st path e tl h0 hk
    cases chunks with
    | nil => simp at hk
    | cons ch rest =>
      simp only [List.replicate_zero, List.nil_append] at h0
      rw [writeChunksLoop_cons_err path e st { st with ioFaults := tl } ch rest
        (append_to_file_err st path (String.mk ch) e tl h0)]
      refine ⟨rfl, ?_⟩
      show fsRead st.fs path = fsRead st.fs path ++ String.mk []
      rw [string_append_mk_nil]
  | succ k ih =>
    intro chunks st path e tl h0 hk
    cases chunks with
    | nil => simp at hk
    | cons ch rest =>
      have h0' : st.ioFaults = Option.none ::
          (List.replicate k Option.none ++ some e :: tl) := by
        rw [h0, List.replicate_succ, List.cons_append]
      rw [writeChunksLoop_cons_ok path st
        { st with fs := fsSet st.fs path (fsRead st.fs path ++ String.mk ch),
                  ioFaults := List.replicate k Option.none ++ some e :: tl }
        ch rest (append_to_file_ok_cons st path (String.mk ch) _ h0')]
      have hk' : k < rest.length := by
        simp only [List.length_cons] at hk
        omega
      obtain ⟨h1, h2⟩ := ih rest
        { st with fs := fsSet st.fs path (fsRead st.fs path ++ String.mk ch),
                  ioFaults := List.replicate k Option.none ++ some e :: tl }
        path e tl rfl hk'
      refine ⟨h1, ?_⟩
      rw [h2]
      show fsRead (fsSet st.fs path (fsRead st.fs path ++ String.mk ch)) path ++
          String.mk ((rest.take k).flatten) =
        fsRead st.fs path ++ String.mk (((ch :: rest).take (k + 1)).flatten)
      rw [fsRead_fsSet_self, List.take_succ_cons, List.flatten_cons,
        string_append_mk_assoc]

theorem write_file_ok_nil (st : TermState) (path content : String)
    (h : st.ioFaults = []) :
    write_file st path content =
      ([("success", PyVal.bool true),
        ("message", PyVal.str ("File " ++ path ++ " written successfully"))],
       { st with fs := fsSet st.fs path content }) := by
  obtain ⟨cwd, fs, procs, events, now, ioF⟩ := st
  have h' : ioF = [] := h
  subst h'
  rfl

theorem write_file_ok_cons (st : TermState) (path content : String)
    (tl : List (Option String)) (h : st.ioFaults = Option.none :: tl) :
    write_file st path content =
      ([("success", PyVal.bool true),
        ("message", PyVal.str ("File " ++ path ++ " written successfully"))],
       { st with fs := fsSet st.fs path content, ioFaults := tl }) := by
  obtain ⟨cwd, fs, procs, events, now, ioF⟩ := st
  have h' : ioF = Option.none :: tl := h
  subst h'
  rfl

theorem string_empty_append (s : String) : "" ++ s = s := rfl

theorem chunk_large_write_reduce (env : Env) (st : TermState) (path content : String)
    (C : Nat) (hS : content.length > C) :
    chunk_large_file_operations env st "terminal.write_file"
        [("path", path), ("content", content)] C =
      (match writeChunksLoop path (write_file st path "").2 (chunksOf C content.toList) with
       | (some err, st2) => Except.ok (ToolResult.dict err, st2)
       | (Option.none, st2) => Except.ok (ToolResult.dict
           [("success", PyVal.bool true),
            ("message", PyVal.str ("File " ++ path ++ " written successfully in " ++
               toString (chunksOf C content.toList).length ++ " chunks"))], st2)) := by
  unfold chunk_large_file_operations chunk_large_fuel
  simp only [paramsHas, paramsGetD, List.find?]
  simp [hS]

theorem string_mk_toList (s : String) : String.mk s.toList = s := rfl

/-- C3: a write-action payload of size S routed through the chunked-write
strategy with chunk size C first truncates the target file to empty, then
appends the payload's slices in order; with no I/O fault exactly
ceil(S / C) slices are appended, their in-order concatenation (the final
file content) is the original payload bit for bit, and the success result
reports the number of chunks used; the first slice whose append raises an
error aborts the remaining slices and returns that slice's error, leaving
exactly the k complete slices written before it in the file. -/
theorem chunked_write_contract (env : Env) (st : TermState) (path content : String)
    (C : Nat) (hC : 0 < C) (hS : C < content.length) :
    (st.ioFaults = [] →
      ∃ stf, chunk_large_file_operations env st "terminal.write_file"
          [("path", path), ("content", content)] C =
        Except.ok (ToolResult.dict
          [("success", PyVal.bool true),
           ("message", PyVal.str ("File " ++ path ++ " written successfully in " ++
              toString ((content.length + C - 1) / C) ++ " chunks"))], stf) ∧
        fsRead stf.fs path = content) ∧
    (∀ (k : Nat) (e : String) (tl : List (Option String)),
      k < (content.length + C - 1) / C →
      st.ioFaults = Option.none :: (List.replicate k Option.none ++ some e :: tl) →
      ∃ stf, chunk_large_file_operations env st "terminal.write_file"
          [("path", path), ("content", content)] C =
        Except.ok (ToolResult.dict [("error", PyVal.str e)], stf) ∧
        fsRead stf.fs path = String.mk (content.toList.take (k * C))) := by
  constructor
  · intro h0
    have hred := chunk_large_write_reduce env st path content C hS
    rw [write_file_ok_nil st path "" h0] at hred
    have h0' : ({ st with fs := fsSet st.fs path "" } : TermState).ioFaults = [] := h0
    obtain ⟨w1, w2, w3⟩ := writeChunksLoop_ok (chunksOf C content.toList)
      { st with fs := fsSet st.fs path "" } path h0'
    rcases hW : writeChunksLoop path { st with fs := fsSet st.fs path "" }
      (chunksOf C content.toList) with ⟨wres, wst⟩
    rw [hW] at w1 w3
    simp only at w1 w3
    subst w1
    refine ⟨wst, ?_, ?_⟩
    · rw [hred, hW]
      simp only
      rw [chunksOf_length C hC content.toList]
      rfl
    · rw [w3, fsRead_fsSet_self, chunksOf_join C hC, string_mk_toList,
        string_empty_append]
  · intro k e tl hk h0
    have hred := chunk_large_write_reduce env st path content C hS
    rw [write_file_ok_cons st path "" _ h0] at hred
    have hklen : k < (chunksOf C content.toList).length := by
      rw [chunksOf_length C hC content.toList]
      exact hk
    obtain ⟨w1, w2⟩ := writeChunksLoop_fault k (chunksOf C content.toList)
      { st with fs := fsSet st.fs path "",
                ioFaults := List.replicate k Option.none ++ some e :: tl }
      path e tl rfl hklen
    rcases hW : writeChunksLoop path
      { st with fs := fsSet st.fs path "",
                ioFaults := List.replicate k Option.none ++ some e :: tl }
      (chunksOf C content.toList) with ⟨wres, wst⟩
    rw [hW] at w1 w2
    simp only at w1 w2
    subst w1
    refine ⟨wst, ?_, ?_⟩
    · rw [hred, hW]
    · rw [w2, fsRead_fsSet_self, chunksOf_take_join C hC, string_empty_append]

theorem chunked_write_contract_witness :
    0 < 2 ∧ 2 < ("abcde" : String).length ∧ term0.ioFaults = [] ∧
    ∃ stf, chunk_large_file_operations env0 term0 "terminal.write_file"
        [("path", "f"), ("content", "abcde")] 2 =
      Except.ok (ToolResult.dict
        [("success", PyVal.bool true),
         ("message", PyVal.str ("File " ++ "f" ++ " written successfully in " ++
            toString ((("abcde" : String).length + 2 - 1) / 2) ++ " chunks"))], stf) ∧
      fsRead stf.fs "f" = "abcde" :=
  ⟨by decide, by decide, rfl,
   (chunked_write_contract env0 term0 "f" "abcde" 2 (by decide) (by decide)).1 rfl⟩

/-! Not-found behaviour and registry-absence preservation. -/

theorem get_process_output_not_found (st : TermState) (pid : String)
    (h : regFind st.procs pid = Option.none) :
    get_process_output st pid = (notFoundDict pid, st) := by
  unfold get_process_output
  rw [h]

theorem stop_not_found (st : TermState) (pid : String)
    (h : regFind st.procs pid = Option.none) :
    stop_background_process st pid = (notFoundDict pid, st) := by
  unfold stop_background_process
  rw [h]

theorem send_input_not_found (st : TermState) (pid txt : String)
    (h : regFind st.procs pid = Option.none) :
    send_input_to_process st pid txt = (notFoundDict pid, st) := by
  unfold send_input_to_process
  rw [h]

theorem get_process_output_dead (st : TermState) (pid : String) (info : ProcInfo)
    (hfind : regFind st.procs pid = some info) (hdead : info.alive = false) :
    get_process_output st pid =
      ([("status", PyVal.str "terminated"), ("stdout", PyVal.str info.stdout),
        ("stderr", PyVal.str info.stderr), ("returncode", PyVal.int info.returncode)],
       { st with procs := regErase st.procs pid }) := by
  unfold get_process_output
  rw [hfind]
  simp [hdead]

theorem get_process_output_procs_sub (st : TermState) (pid q : String)
    (h : regFind st.procs pid = Option.none) :
    regFind ((get_process_output st q).2).procs pid = Option.none := by
  unfold get_process_output
  cases hf : regFind st.procs q with
  | none => exact h
  | some i =>
    by_cases hi : i.alive
    · simp only [hf, hi, if_pos]
      exact h
    · simp only [hf, hi, Bool.false_eq_true, if_false]
      exact regFind_none_filter st.procs pid _ h

theorem send_input_procs (st : TermState) (pid txt : String) :
    ((send_input_to_process st pid txt).2).procs = st.procs := by
  unfold send_input_to_process
  cases hf : regFind st.procs pid with
  | none => rfl
  | some i =>
    by_cases hi : i.alive
    · cases hr : i.stdinRaises with
      | none => simp [hi, hr]
      | some e => simp [hi, hr]
    · simp [hi]

theorem write_file_procs (st : TermState) (p c : String) :
    ((write_file st p c).2).procs = st.procs := by
  obtain ⟨cwd, fs, procs, events, now, ioF⟩ := st
  cases ioF with
  | nil => rfl
  | cons f tl => cases f <;> rfl

theorem append_to_file_procs (st : TermState) (p c : String) :
    ((append_to_file st p c).2).procs = st.procs := by
  obtain ⟨cwd, fs, procs, events, now, ioF⟩ := st
  cases ioF with
  | nil => rfl
  | cons f tl => cases f <;> rfl

theorem applyOp_absent (st : TermState) (op : TermOp) (pid : String)
    (h : regFind st.procs pid = Option.none) (hs : opSpawnsId op pid = false) :
    regFind ((applyOp st op)).procs pid = Option.none := by
  cases op with
  | peek q => exact get_process_output_procs_sub st pid q h
  | stop q =>
    show regFind ((stop_background_process st q).2).procs pid = Option.none
    rw [stop_procs]
    exact regFind_none_filter st.procs pid _ h
  | sendInput q txt =>
    show regFind ((send_input_to_process st q txt).2).procs pid = Option.none
    rw [send_input_procs]
    exact h
  | listProcs =>
    show regFind ((list_background_processes st).2).procs pid = Option.none
    rw [listBg_procs]
    exact regFind_none_filter st.procs pid _ h
  | spawn cmd res =>
    cases res with
    | none => exact h
    | some r =>
      obtain ⟨q, i⟩ := r
      have hq : q ≠ pid := by
        simpa [opSpawnsId] using hs
      show regFind (st.procs ++ [(q, i)]) pid = Option.none
      exact regFind_none_append st.procs pid q i h hq
  | writeF p c =>
    show regFind ((write_file st p c).2).procs pid = Option.none
    rw [write_file_procs]
    exact h
  | appendF p c =>
    show regFind ((append_to_file st p c).2).procs pid = Option.none
    rw [append_to_file_procs]
    exact h

theorem applyOps_absent (ops : List TermOp) :
    ∀ (st : TermState) (pid : String),
      regFind st.procs pid = Option.none →
      (∀ op ∈ ops, opSpawnsId op pid = false) →
      regFind ((ops.foldl applyOp st)).procs pid = Option.none := by
  induction ops with
  | nil => intro st pid h _; exact h
  | cons op rest ih =>
    intro st pid h hops
    simp only [List.foldl_cons]
    exact ih _ pid
      (applyOp_absent st op pid h (hops op (List.mem_cons_self op rest)))
      (fun o ho => hops o (List.mem_cons_of_mem op ho))

/-! Claim theorems. -/

/-- C6: a `peek_output` (`get_process_output`) call that observes a
registered process dead reports status terminated with the exit code
included, removes the record, and every subsequent query with that id
(another peek, a stop, or a send-input, after any continuation of
terminal calls that never spawns that id again, as uuid4 guarantees)
fails with the not-found error. -/
theorem peek_dead_removes (st : TermState) (pid : String) (info : ProcInfo)
    (hfind : regFind st.procs pid = some info) (hdead : info.alive = false) :
    dictGet (get_process_output st pid).1 "status" = some (PyVal.str "terminated") ∧
    dictGet (get_process_output st pid).1 "returncode" =
      some (PyVal.int info.returncode) ∧
    regFind ((get_process_output st pid).2).procs pid = Option.none ∧
    ∀ ops : List TermOp, (∀ op ∈ ops, opSpawnsId op pid = false) →
      (get_process_output (ops.foldl applyOp (get_process_output st pid).2) pid).1 =
        notFoundDict pid ∧
      (stop_background_process (ops.foldl applyOp (get_process_output st pid).2) pid).1 =
        notFoundDict pid ∧
      ∀ txt,
        (send_input_to_process (ops.foldl applyOp (get_process_output st pid).2) pid txt).1 =
          notFoundDict pid := by
  rw [get_process_output_dead st pid info hfind hdead]
  refine ⟨rfl, rfl, regFind_erase_self st.procs pid, ?_⟩
  intro ops hops
  have habs : regFind
      ((ops.foldl applyOp { st with procs := regErase st.procs pid })).procs pid =
      Option.none :=
    applyOps_absent ops _ pid (regFind_erase_self st.procs pid) hops
  refine ⟨?_, ?_, ?_⟩
  · rw [get_process_output_not_found _ _ habs]
  · rw [stop_not_found _ _ habs]
  · intro txt
    rw [send_input_not_found _ _ txt habs]

theorem peek_dead_removes_witness :
    regFind stD.procs "p" = some deadProc ∧ deadProc.alive = false ∧
    (∀ op ∈ ops0, opSpawnsId op "p" = false) ∧
    dictGet (get_process_output stD "p").1 "returncode" = some (PyVal.int 7) ∧
    (get_process_output (ops0.foldl applyOp (get_process_output stD "p").2) "p").1 =
      notFoundDict "p" :=
  ⟨by decide, rfl, by decide,
   (peek_dead_removes stD "p" deadProc (by decide) rfl).2.1,
   ((peek_dead_removes stD "p" deadProc (by decide) rfl).2.2.2 ops0 (by decide)).1⟩

/-- C7: stop is idempotent; when the id is registered, the first stop
removes the record unconditionally (live process, kill exception, or
already dead alike), and a second stop finds nothing, reports the
not-found error and leaves the state untouched (the embedding is total,
so neither call can raise). -/
theorem stop_idempotent (st : TermState) (pid : String) (info : ProcInfo)
    (h : regFind st.procs pid = some info) :
    regFind ((stop_background_process st pid).2).procs pid = Option.none ∧
    (stop_background_process ((stop_background_process st pid).2) pid).1 =
      notFoundDict pid ∧
    (stop_background_process ((stop_background_process st pid).2) pid).2 =
      (stop_background_process st pid).2 := by
  have h1 : regFind ((stop_background_process st pid).2).procs pid = Option.none := by
    rw [stop_procs]
    exact regFind_erase_self st.procs pid
  refine ⟨h1, ?_, ?_⟩
  · rw [stop_not_found _ _ h1]
  · rw [stop_not_found _ _ h1]

theorem stop_idempotent_witness :
    regFind stL.procs "p" = some liveProc ∧
    regFind ((stop_background_process stL "p").2).procs "p" = Option.none ∧
    (stop_background_process ((stop_background_process stL "p").2) "p").1 =
      notFoundDict "p" :=
  ⟨by decide, (stop_idempotent stL "p" liveProc (by decide)).1,
   (stop_idempotent stL "p" liveProc (by decide)).2.1⟩

/-- C8 as stated is false at this concrete timed-out command: the
timeout result does report status running with the partial output, but
the `returncode` field is present (with Python None as value) rather
than absent. -/
theorem run_command_timeout_counterexample :
    dictGet (run_command "10" (CmdOutcome.timedOut "partial out" "partial err"))
        "status" = some (PyVal.str "running") ∧
    dictGet (run_command "10" (CmdOutcome.timedOut "partial out" "partial err"))
        "stdout" = some (PyVal.str "partial out") ∧
    dictHasKey (run_command "10" (CmdOutcome.timedOut "partial out" "partial err"))
        "returncode" = true := by
  decide

/-- C8 amended: for every command whose execution exceeds the timeout,
the result reports status running together with the partial stdout and
stderr captured so far and an explanatory message, and the `returncode`
field is present with the value None (null) rather than absent. -/
theorem run_command_timeout_contract (t po pe : String) :
    dictGet (run_command t (CmdOutcome.timedOut po pe)) "status" =
      some (PyVal.str "running") ∧
    dictGet (run_command t (CmdOutcome.timedOut po pe)) "stdout" =
      some (PyVal.str po) ∧
    dictGet (run_command t (CmdOutcome.timedOut po pe)) "stderr" =
      some (PyVal.str pe) ∧
    dictGet (run_command t (CmdOutcome.timedOut po pe)) "returncode" =
      some PyVal.null ∧
    dictGet (run_command t (CmdOutcome.timedOut po pe)) "message" =
      some (PyVal.str ("Command still running after " ++ t ++
        " seconds. Continuing in background.")) :=
  ⟨rfl, rfl, rfl, rfl, rfl⟩

/-- C9 as stated is false at this concrete state: for a process id that
is still registered but whose process has terminated, `send_input` fails
with a "Process p is not running" error, which is not the not-found
error the claim asserts. -/
theorem send_input_dead_counterexample :
    regFind stD.procs "p" = some deadProc ∧
    deadProc.alive = false ∧
    (send_input_to_process stD "p" "hi").1 ≠ notFoundDict "p" ∧
    (send_input_to_process stD "p" "hi").1 =
      [("error", PyVal.str "Process p is not running")] := by
  decide

/-- C9 amended: `send_input` on a terminated process always fails with
an error and sends nothing, but the error depends on whether the record
is still registered: an unregistered id fails with the not-found error,
while a registered-but-dead id fails with an is-not-running error; in
both cases the state (registry, event log) is unchanged. -/
theorem send_input_terminated_error (st : TermState) (pid txt : String) :
    (regFind st.procs pid = Option.none →
      send_input_to_process st pid txt = (notFoundDict pid, st)) ∧
    (∀ info, regFind st.procs pid = some info → info.alive = false →
      send_input_to_process st pid txt =
        ([("error", PyVal.str ("Process " ++ pid ++ " is not running"))], st)) := by
  constructor
  · intro h
    exact send_input_not_found st pid txt h
  · intro info h ha
    unfold send_input_to_process
    rw [h]
    simp [ha]

theorem send_input_terminated_error_witness :
    regFind stD.procs "p" = some deadProc ∧ deadProc.alive = false ∧
    send_input_to_process stD "p" "ping" =
      ([("error", PyVal.str "Process p is not running")], stD) :=
  ⟨by decide, rfl,
   (send_input_terminated_error stD "p" "ping").2 deadProc (by decide) rfl⟩

/-- C2: on every exit path of the task loop — explicit completion
(`Except.ok true`), step-budget exhaustion (`Except.ok false`), or an
exception escaping the loop body (`Except.error`) — the outcome is
passed through unchanged while the cleanup pass runs on the state the
loop ended in: afterwards no background process remains registered, and
every process that was registered and alive at loop exit was sent the
termination signal (unless the kill itself raised, which the code
swallows). -/
theorem solve_task_cleanup (body : Nat → AgentState → BodyOutcome)
    (maxSteps : Nat) (st0 : AgentState) :
    (solve_task body maxSteps st0).1 = (solveTaskLoop body st0 maxSteps 1).1 ∧
    (solve_task body maxSteps st0).2.term =
      stopAllProcesses (solveTaskLoop body st0 maxSteps 1).2.term ∧
    (solve_task body maxSteps st0).2.term.procs = [] ∧
    ∀ pid info,
      regFind (solveTaskLoop body st0 maxSteps 1).2.term.procs pid = some info →
      info.alive = true → info.killRaises = Option.none →
      ("SIGTERM:" ++ pid) ∈ (solve_task body maxSteps st0).2.term.events := by
  refine ⟨rfl, rfl, stopAll_procs _, ?_⟩
  intro pid info hfind ha hk
  exact stopAll_event _ pid info hfind ha hk

theorem solve_task_cleanup_witness :
    regFind (solveTaskLoop body0 agent0 3 1).2.term.procs "p" = some liveProc ∧
    liveProc.alive = true ∧ liveProc.killRaises = Option.none ∧
    (solve_task body0 3 agent0).1 = Except.error "interrupted" ∧
    (solve_task body0 3 agent0).2.term.procs = [] ∧
    ("SIGTERM:" ++ "p") ∈ (solve_task body0 3 agent0).2.term.events :=
  ⟨by decide, rfl, rfl, rfl,
   (solve_task_cleanup body0 3 agent0).2.2.1,
   (solve_task_cleanup body0 3 agent0).2.2.2 "p" liveProc (by decide) rfl rfl⟩

/-- C5: response extraction is total — for every input string it returns
a decision record (paired with the constant success diagnostic, which
witnesses that no input can make it fail) — and when the rationale
region is absent the thought defaults to the placeholder, and when the
completion region is absent the completion flag defaults to false. -/
theorem extractor_total_defaults (text : String) :
    (extract_response_from_tags text).2 =
      "Successfully extracted response from tags" ∧
    (extractTag "<thought>" "</thought>" text.toList = Option.none →
      (extract_response_from_tags text).1.thought = "No thought provided") ∧
    (extractTag "<task_complete>" "</task_complete>" text.toList = Option.none →
      (extract_response_from_tags text).1.task_complete = false) := by
  refine ⟨rfl, ?_, ?_⟩
  · intro h
    unfold extract_response_from_tags
    simp only [h]
  · intro h
    unfold extract_response_from_tags
    simp only [h]

theorem extractor_total_defaults_witness :
    extractTag "<thought>" "</thought>" ("<thought>unfinished".toList) =
      Option.none ∧
    extractTag "<task_complete>" "</task_complete>" ("<thought>unfinished".toList) =
      Option.none ∧
    (extract_response_from_tags "<thought>unfinished").1.thought =
      "No thought provided" ∧
    (extract_response_from_tags "<thought>unfinished").1.task_complete = false :=
  ⟨by decide, by decide,
   (extractor_total_defaults "<thought>unfinished").2.1 (by decide),
   (extractor_total_defaults "<thought>unfinished").2.2 (by decide)⟩

theorem extract_diag (t : String) :
    (extract_response_from_tags t).2 =
      "Successfully extracted response from tags" := rfl

theorem stepAttempts_invalid (env : Env) (client : Nat → ClientReply)
    (h : ∀ n, ∃ t, client n = ClientReply.reply t ∧
      decisionInvalid (extract_response_from_tags t).1 = true) :
    ∀ (budget attempt : Nat) (st : AgentState),
      stepAttempts env client st attempt budget =
        ({ done := false, thought := "", functionCall := Option.none,
           result := some (ToolResult.dict
             [("error", PyVal.str
               ("Failed to extract valid response structure: Successfully extracted response from tags"))]) },
         st, budget + 1) := by
  intro budget
  induction budget with
  | zero =>
    intro attempt st
    obtain ⟨t, ht, hinv⟩ := h attempt
    rw [stepAttempts, ht]
    simp [hinv, extract_diag]
  | succ b ih =>
    intro attempt st
    obtain ⟨t, ht, hinv⟩ := h attempt
    rw [stepAttempts, ht]
    simp [hinv, ih (attempt + 1) st]

/-- C4: against a model client whose replies always parse to an invalid
decision (no action name and no completion), the step executor performs
exactly `maxRetries + 1` model round trips — hence at most
`max_retries + 1` — and then surfaces the terminal step failure: not
done, empty thought, no call, and an error payload. -/
theorem retry_ceiling (env : Env) (client : Nat → ClientReply)
    (st : AgentState) (maxRetries : Nat)
    (h : ∀ n, ∃ t, client n = ClientReply.reply t ∧
      decisionInvalid (extract_response_from_tags t).1 = true) :
    execute_step env client st maxRetries =
      ({ done := false, thought := "", functionCall := Option.none,
         result := some (ToolResult.dict
           [("error", PyVal.str
             ("Failed to extract valid response structure: Successfully extracted response from tags"))]) },
       { st with store := (buildHistoryText st.store st.history).2 },
       maxRetries + 1) ∧
    (execute_step env client st maxRetries).2.2 ≤ maxRetries + 1 := by
  have hmain := stepAttempts_invalid env client h maxRetries 0
    { st with store := (buildHistoryText st.store st.history).2 }
  constructor
  · exact hmain
  · have heq : (execute_step env client st maxRetries).2.2 = maxRetries + 1 := by
      show (stepAttempts env client
        { st with store := (buildHistoryText st.store st.history).2 } 0 maxRetries).2.2 =
        maxRetries + 1
      rw [hmain]
    omega

theorem retry_ceiling_witness :
    (∀ n, alwaysInvalidClient n = ClientReply.reply "" ∧
      decisionInvalid (extract_response_from_tags "").1 = true) ∧
    execute_step env0 alwaysInvalidClient agent0 2 =
      ({ done := false, thought := "", functionCall := Option.none,
         result := some (ToolResult.dict
           [("error", PyVal.str
             ("Failed to extract valid response structure: Successfully extracted response from tags"))]) },
       agent0, 3) :=
  ⟨fun _ => ⟨rfl, by decide⟩,
   (retry_ceiling env0 alwaysInvalidClient agent0 2
     (fun n => ⟨"", rfl, by decide⟩)).1⟩

theorem stepAttempts_valid_completion (env : Env) (client : Nat → ClientReply)
    (st : AgentState) (attempt budget : Nat) (t : String)
    (ht : client attempt = ClientReply.reply t)
    (hf : pyTruthyStr (extract_response_from_tags t).1.function = true)
    (htc : (extract_response_from_tags t).1.task_complete = true) :
    stepAttempts env client st attempt budget =
      ({ done := true, thought := (extract_response_from_tags t).1.thought,
         functionCall := Option.none, result := Option.none },
       { st with term := stopAllProcesses st.term }, 1) := by
  rw [stepAttempts, ht]
  have hinv : decisionInvalid (extract_response_from_tags t).1 = false := by
    simp [decisionInvalid, htc]
  simp [hinv, dispatchDecision, htc, hf]

set_option maxRecDepth 16384

/-- C1 as stated is false at this concrete reply: the parsed decision
carries both a non-null action name and completion true, but the step
executor does not execute the action and does not defer completion — it
returns done immediately, with no function call and no history entry
(the condition at `agent.py:299` requires completion to be false before
an action is run, and the code's own prompt documents that a true
completion flag means no function is called). -/
theorem action_plus_completion_counterexample :
    (extract_response_from_tags replyBoth).1.function =
      some "terminal.run_command" ∧
    (extract_response_from_tags replyBoth).1.task_complete = true ∧
    (execute_step env0 clientBoth agent0 2).1.done = true ∧
    (execute_step env0 clientBoth agent0 2).1.functionCall = Option.none ∧
    (execute_step env0 clientBoth agent0 2).2.1.history = agent0.history := by
  decide

/-- C1 amended: when a parsed decision carries both a truthy action name
and completion true, completion takes precedence: the step executor runs
no action (no call, no result, no history append), stops every
registered background process, and reports the step done after a single
round trip. -/
theorem completion_overrides_action (env : Env) (client : Nat → ClientReply)
    (st : AgentState) (maxRetries : Nat) (t : String)
    (hc : client 0 = ClientReply.reply t)
    (hf : pyTruthyStr (extract_response_from_tags t).1.function = true)
    (htc : (extract_response_from_tags t).1.task_complete = true) :
    (execute_step env client st maxRetries).1.done = true ∧
    (execute_step env client st maxRetries).1.functionCall = Option.none ∧
    (execute_step env client st maxRetries).1.result = Option.none ∧
    (execute_step env client st maxRetries).1.thought =
      (extract_response_from_tags t).1.thought ∧
    (execute_step env client st maxRetries).2.1.history = st.history ∧
    (execute_step env client st maxRetries).2.1.term.procs = [] ∧
    (execute_step env client st maxRetries).2.2 = 1 := by
  have hexec : execute_step env client st maxRetries =
      ({ done := true, thought := (extract_response_from_tags t).1.thought,
         functionCall := Option.none, result := Option.none },
       { st with store := (buildHistoryText st.store st.history).2,
                 term := stopAllProcesses st.term }, 1) :=
    stepAttempts_valid_completion env client
      { st with store := (buildHistoryText st.store st.history).2 }
      0 maxRetries t hc hf htc
  rw [hexec]
  exact ⟨rfl, rfl, rfl, rfl, rfl, stopAll_procs st.term, rfl⟩

theorem completion_overrides_action_witness :
    clientBoth 0 = ClientReply.reply replyBoth ∧
    pyTruthyStr (extract_response_from_tags replyBoth).1.function = true ∧
    (extract_response_from_tags replyBoth).1.task_complete = true ∧
    (execute_step env0 clientBoth agent0 5).1.done = true ∧
    (execute_step env0 clientBoth agent0 5).2.1.term.procs = [] :=
  ⟨rfl, by decide, by decide,
   (completion_overrides_action env0 clientBoth agent0 5 replyBoth rfl
     (by decide) (by decide)).1,
   (completion_overrides_action env0 clientBoth agent0 5 replyBoth rfl
     (by decide) (by decide)).2.2.2.2.2.1⟩

theorem storePrefix_refl (s : Store) : storePrefix s s :=
  ⟨List.take_length s, le_rfl⟩

theorem storePrefix_trans (a b c : Store) (h1 : storePrefix a b)
    (h2 : storePrefix b c) : storePrefix a c := by
  obtain ⟨hb, hlb⟩ := h1
  obtain ⟨hc, hlc⟩ := h2
  refine ⟨?_, le_trans hlb hlc⟩
  calc c.take a.length = (c.take b.length).take a.length := by
        rw [List.take_take, min_eq_left hlb]
    _ = b.take a.length := by rw [hc]
    _ = a := hb

theorem set_append_len {α : Type} : ∀ (l : List α) (a b : α),
    (l ++ [a]).set l.length b = l ++ [b] := by
  intro l
  induction l with
  | nil => intro a b; rfl
  | cons x xs ih =>
    intro a b
    simp only [List.cons_append, List.length_cons, List.set_cons_succ]
    rw [ih]

theorem storePrefix_alloc_write (store : Store) (r r' : ToolResult) :
    storePrefix store
      (heapWrite (heapAlloc store r).2 (heapAlloc store r).1 r') := by
  show storePrefix store ((store ++ [r]).set store.length r')
  rw [set_append_len]
  exact ⟨List.take_left store [r'], by simp⟩

theorem truncPhase_storePrefix (key : String) (pr : Nat × Store) :
    storePrefix pr.2 (truncPhase key pr).2 := by
  unfold truncPhase
  dsimp only
  split
  · split
    · split
      · exact storePrefix_alloc_write _ _ _
      · exact storePrefix_refl _
    · exact storePrefix_refl _
  · exact storePrefix_refl _

theorem replayResultPtr_storePrefix (store : Store) (ptr : Nat) :
    storePrefix store (replayResultPtr store ptr).2 := by
  unfold replayResultPtr
  exact storePrefix_trans _ _ _
    (truncPhase_storePrefix "stdout" (ptr, store))
    (truncPhase_storePrefix "stderr" (truncPhase "stdout" (ptr, store)))

theorem buildHistoryGo_storePrefix :
    ∀ (hist : List (String × Nat)) (acc : String) (i : Nat) (store : Store),
      storePrefix store (buildHistoryGo acc i store hist).2 := by
  intro hist
  induction hist with
  | nil => intro acc i store; exact storePrefix_refl store
  | cons kv rest ih =>
    intro acc i store
    rw [buildHistoryGo]
    exact storePrefix_trans _ _ _
      (replayResultPtr_storePrefix store kv.2)
      (ih _ _ _)

/-- C10: building the replayed history text never mutates the stored
results — truncation is applied to freshly allocated copies, so the
original heap segment survives intact and every history entry still
dereferences to its full untruncated result (stdout and stderr
included) after prompt construction. -/
theorem history_not_mutated (store : Store) (history : List (String × Nat)) :
    (buildHistoryText store history).2.take store.length = store ∧
    ∀ name ptr, (name, ptr) ∈ history → ptr < store.length →
      (buildHistoryText store history).2.get? ptr = store.get? ptr := by
  have hp := buildHistoryGo_storePrefix history "" 1 store
  have hp1 : (buildHistoryText store history).2.take store.length = store := hp.1
  refine ⟨hp1, ?_⟩
  intro name ptr _ hlt
  conv_rhs => rw [← hp1]
  rw [List.get?_take hlt]

theorem history_not_mutated_witness :
    ("terminal.run_command()", 0) ∈ histLong ∧ 0 < storeLong.length ∧
    (buildHistoryText storeLong histLong).2.get? 0 = storeLong.get? 0 :=
  ⟨by decide, by decide,
   (history_not_mutated storeLong histLong).2 "terminal.run_command()" 0
     (by decide) (by decide)⟩

end CodeAgent
